import Mathlib

/-!
Verification development for the 1Shot API TypeScript SDK.

The SDK exposes resource clients (`Wallets`, `ContractEvents`) whose methods
validate caller input with zod schemas, issue one HTTP call through an
injected transport, and (for most operations) validate the raw response
before returning it.

We shallowly embed the runtime data as a JSON-like value type (`JsonValue`,
with an explicit `undefined` constructor because JavaScript distinguishes
`undefined` from `null` and from key absence), embed each zod schema as a
list of field validators (`ZField`), and embed each client method as a pure
function from an oracle transport `HttpCall → JsonValue` to the list of
issued calls together with the returned value (`none` models a thrown
`ZodError`).

Numbers are modelled as rationals so that the zod `.int()`, `.positive()`
and `.nonnegative()` refinements are represented faithfully.
-/

/-- JavaScript runtime values exchanged with the SDK, as a JSON-like tree.
`undefined` models the JavaScript value `undefined`, which is distinct from
`null`. Objects are ordered association lists, mirroring JavaScript
property-insertion order. -/
inductive JsonValue where
  | null : JsonValue
  | undefined : JsonValue
  | bool : Bool → JsonValue
  | num : ℚ → JsonValue
  | str : String → JsonValue
  | arr : List JsonValue → JsonValue
  | obj : List (String × JsonValue) → JsonValue

namespace JsonValue

/-- Whether a value is the JavaScript `undefined`. -/
def isUndefined : JsonValue → Bool
  | .undefined => true
  | _ => false

end JsonValue

/-- Property read on a JavaScript object association list: the value at the
first occurrence of the key, or `undefined` when the key is absent. -/
def jsGet (l : List (String × JsonValue)) (k : String) : JsonValue :=
  match l with
  | [] => .undefined
  | p :: rest => if p.1 = k then p.2 else jsGet rest k

/-- Whether a JavaScript object has the given own property (the `in`
operator; a key present with value `undefined` still counts). -/
def hasKeyB (l : List (String × JsonValue)) (k : String) : Bool :=
  l.any (fun p => p.1 == k)

/-- Keys of an object association list, in property order. -/
def keysOf (l : List (String × JsonValue)) : List String :=
  l.map Prod.fst

/-- Property read through a `JsonValue` (always an object at use sites). -/
def vGet (v : JsonValue) (k : String) : JsonValue :=
  match v with
  | .obj l => jsGet l k
  | _ => .undefined

/-- Set a property, JavaScript-style: overwrite in place when the key
already exists, otherwise append at the end. -/
def setKey (l : List (String × JsonValue)) (k : String) (v : JsonValue) :
    List (String × JsonValue) :=
  if l.any (fun p => p.1 == k) then
    l.map (fun p => if p.1 = k then (k, v) else p)
  else
    l ++ [(k, v)]

/-- Object spread `\x7b ...base, ...ext \x7d` as used by the SDK when merging
path identifiers with a caller-supplied params object. -/
def spreadObj (base ext : List (String × JsonValue)) :
    List (String × JsonValue) :=
  ext.foldl (fun acc p => setKey acc p.1 p.2) base

/-- Loose JavaScript inequality test `value != undefined`, which is false
exactly for `undefined` and `null`. The strict pair of checks
`!== undefined && !== null` used elsewhere in the SDK denotes the same
predicate. -/
def isLooselyDefined : JsonValue → Bool
  | .undefined => false
  | .null => false
  | _ => true

/-- Hexadecimal digit test, case-insensitive, as in the zod UUID pattern. -/
def isHexChar (c : Char) : Bool :=
  (('0' ≤ c) && (c ≤ '9')) || (('a' ≤ c) && (c ≤ 'f')) || (('A' ≤ c) && (c ≤ 'F'))

/-- Split a character list at dashes. -/
def splitOnDash : List Char → List (List Char)
  | [] => [[]]
  | c :: rest =>
    let groups := splitOnDash rest
    if c = '-' then [] :: groups
    else
      match groups with
      | [] => [[c]]
      | g :: gs => (c :: g) :: gs

/-- UUID string test modelling zod's `z.string().uuid()` format check:
five dash-separated groups of hexadecimal digits with lengths
8, 4, 4, 4 and 12. -/
def isUUID (s : String) : Bool :=
  let groups := splitOnDash s.toList
  (groups.map List.length == [8, 4, 4, 4, 12]) &&
    groups.all (fun g => g.all isHexChar)

mutual

/-- JavaScript string coercion used by `URLSearchParams.append` and template
literals. Array elements that are `null`/`undefined` render as empty
strings; non-integral numbers use the rational printer as an approximation
of JavaScript float formatting (no claim exercises that case). -/
def jsToString : JsonValue → String
  | .null => "null"
  | .undefined => "undefined"
  | .bool b => cond b "true" "false"
  | .num q => if q.den = 1 then toString q.num else toString q
  | .str s => s
  | .arr xs => jsArrToString xs
  | .obj _ => "[object Object]"

def jsArrToString : List JsonValue → String
  | [] => ""
  | [x] => jsElemToString x
  | x :: xs => jsElemToString x ++ "," ++ jsArrToString xs

def jsElemToString : JsonValue → String
  | .null => ""
  | .undefined => ""
  | .bool b => cond b "true" "false"
  | .num q => if q.den = 1 then toString q.num else toString q
  | .str s => s
  | .arr xs => jsArrToString xs
  | .obj _ => "[object Object]"

end

/-- UTF-8 byte expansion of a character, as a list of byte values. -/
def utf8Bytes (c : Char) : List Nat :=
  let n := c.toNat
  if n < 128 then [n]
  else if n < 2048 then [192 + n / 64, 128 + n % 64]
  else if n < 65536 then [224 + n / 4096, 128 + (n / 64) % 64, 128 + n % 64]
  else [240 + n / 262144, 128 + (n / 4096) % 64, 128 + (n / 64) % 64, 128 + n % 64]

/-- Uppercase hexadecimal digit for a value below 16. -/
def hexDigit (n : Nat) : Char :=
  if n < 10 then Char.ofNat (48 + n) else Char.ofNat (55 + n)

/-- Characters kept verbatim by `application/x-www-form-urlencoded`
encoding, as produced by `URLSearchParams.toString`. -/
def isUrlSafe (c : Char) : Bool :=
  c.isAlphanum || c = '*' || c = '-' || c = '.' || c = '_'

/-- Percent-encoding of one character for `URLSearchParams.toString`. -/
def urlEncodeChar (c : Char) : String :=
  if isUrlSafe c then String.singleton c
  else if c = ' ' then "+"
  else String.join ((utf8Bytes c).map (fun b =>
    String.mk ['%', hexDigit (b / 16), hexDigit (b % 16)]))

/-- The `application/x-www-form-urlencoded` encoding of a string. -/
def urlEncode (s : String) : String :=
  String.join (s.toList.map urlEncodeChar)

/-- Rendering of an ordered list of query parameters, as
`URLSearchParams.toString` does after a sequence of `append` calls. -/
def renderQuery (qp : List (String × String)) : String :=
  String.intercalate "&" (qp.map (fun p => urlEncode p.1 ++ "=" ++ urlEncode p.2))

/-- Path construction shared by the list/get operations: append
`?queryString` only when the rendered query string is non-empty. -/
def mkPath (base : String) (qp : List (String × String)) : String :=
  let qs := renderQuery qp
  if qs = "" then base else base ++ "?" ++ qs

/-- Query parameters built by iterating a raw caller-supplied params object
with `Object.entries(params).forEach`, appending every key whose value is
neither `undefined` nor `null` (the SDK's loose `value != undefined` test),
in property-enumeration order. -/
def entriesQuery (params : List (String × JsonValue)) : List (String × String) :=
  (params.filter (fun p => isLooselyDefined p.2)).map
    (fun p => (p.1, jsToString p.2))

/-- One field of a zod object schema: a name, the validator for the bare
type, and the `.optional()` / `.nullable()` modifiers. -/
structure ZField where
  name : String
  validate : JsonValue → Option JsonValue
  opt : Bool
  nullableF : Bool

/-- Validator for `z.string()`. -/
def pString : JsonValue → Option JsonValue
  | .str s => some (.str s)
  | _ => none

/-- Validator for `z.string().uuid()`. -/
def pUuid : JsonValue → Option JsonValue
  | .str s => if isUUID s then some (.str s) else none
  | _ => none

/-- Validator for `z.number()` with optional `.int()`, `.positive()` and
`.nonnegative()` refinements. -/
def pNumber (int pos nonneg : Bool) : JsonValue → Option JsonValue
  | .num q =>
    if (!int || q.den == 1) && (!pos || decide (0 < q)) && (!nonneg || decide (0 ≤ q)) then
      some (.num q)
    else none
  | _ => none

/-- Validator for the balance `type` discriminator:
`z.number().int().refine(val => val === 0)`. -/
def pLiteralZero : JsonValue → Option JsonValue
  | .num q => if q.den == 1 && q == 0 then some (.num q) else none
  | _ => none

/-- Validator for `z.boolean()`. -/
def pBoolean : JsonValue → Option JsonValue
  | .bool b => some (.bool b)
  | _ => none

/-- Validator for `z.enum([...])`. -/
def pEnum (lits : List String) : JsonValue → Option JsonValue
  | .str s => if lits.any (fun t => t == s) then some (.str s) else none
  | _ => none

/-- Validator for `z.record(z.string())`: an object whose values are all
strings, returned unchanged. -/
def pRecordString : JsonValue → Option JsonValue
  | .obj l => if l.all (fun p => p.2 matches .str _) then some (.obj l) else none
  | _ => none

/-- Element-wise validation of an array's entries. -/
def parseElems (p : JsonValue → Option JsonValue) : List JsonValue → Option (List JsonValue)
  | [] => some []
  | x :: xs =>
    match p x, parseElems p xs with
    | some w, some ws => some (w :: ws)
    | _, _ => none

/-- Validator for `z.array(inner)`. -/
def pArray (p : JsonValue → Option JsonValue) : JsonValue → Option JsonValue
  | .arr xs => (parseElems p xs).map .arr
  | _ => none

/-- Validation of one field value, applying the zod `.optional()` and
`.nullable()` modifiers before the bare type validator. -/
def parseFieldVal (f : ZField) (v : JsonValue) : Option JsonValue :=
  match v with
  | .undefined => if f.opt then some .undefined else none
  | .null => if f.nullableF then some .null else none
  | v => f.validate v

/-- Validation of an object against a zod shape in declaration order, as
`z.object(...).parse` does in its default strip mode: unknown keys are
dropped; a declared key is written to the output when it was present on the
input object or its parsed value is not `undefined`. -/
def parseFields (fs : List ZField) (l : List (String × JsonValue)) :
    Option (List (String × JsonValue)) :=
  match fs with
  | [] => some []
  | f :: rest =>
    match parseFieldVal f (jsGet l f.name), parseFields rest l with
    | some w, some ws =>
      some (if hasKeyB l f.name || !w.isUndefined then (f.name, w) :: ws else ws)
    | _, _ => none

/-- Validator for `z.object(...)` (default strip mode): non-objects are
rejected, objects are rebuilt from the declared shape. -/
def pObject (fs : List ZField) : JsonValue → Option JsonValue
  | .obj l => (parseFields fs l).map .obj
  | _ => none

/-! Schemas from `src/clients/node/src/validation/wallet.ts`. -/

/-- Embedding of `accountBalanceDetailsSchema`. -/
def accountBalanceDetailsSchema : List ZField :=
  [ ⟨"type", pLiteralZero, false, false⟩,
    ⟨"ticker", pString, false, false⟩,
    ⟨"chainId", pNumber true true false, false, false⟩,
    ⟨"tokenAddress", pString, false, false⟩,
    ⟨"accountAddress", pString, false, false⟩,
    ⟨"balance", pString, false, false⟩,
    ⟨"decimals", pNumber true false true, false, false⟩ ]

/-- Embedding of `walletSchema`. -/
def walletSchema : List ZField :=
  [ ⟨"id", pUuid, false, false⟩,
    ⟨"accountAddress", pString, false, false⟩,
    ⟨"businessId", pUuid, false, true⟩,
    ⟨"userId", pUuid, false, true⟩,
    ⟨"chainId", pNumber true true false, false, false⟩,
    ⟨"name", pString, false, false⟩,
    ⟨"description", pString, false, false⟩,
    ⟨"isAdmin", pBoolean, false, false⟩,
    ⟨"accountBalanceDetails", pObject accountBalanceDetailsSchema, false, true⟩,
    ⟨"erc7702ContractAddress", pString, false, true⟩,
    ⟨"updated", pNumber false false false, false, false⟩,
    ⟨"created", pNumber false false false, false, false⟩ ]

/-- Embedding of `walletListSchema`. -/
def walletListSchema : List ZField :=
  [ ⟨"response", pArray (pObject walletSchema), false, false⟩,
    ⟨"page", pNumber true true false, false, false⟩,
    ⟨"pageSize", pNumber true true false, false, false⟩,
    ⟨"totalResults", pNumber true false true, false, false⟩ ]

/-- Embedding of `listWalletsSchema`. -/
def listWalletsSchema : List ZField :=
  [ ⟨"businessId", pUuid, false, false⟩,
    ⟨"chainId", pNumber true true false, true, true⟩,
    ⟨"pageSize", pNumber true true false, true, true⟩,
    ⟨"page", pNumber true true false, true, true⟩,
    ⟨"name", pString, true, true⟩ ]

/-- Embedding of `createWalletSchema`. -/
def createWalletSchema : List ZField :=
  [ ⟨"businessId", pUuid, false, false⟩,
    ⟨"chainId", pNumber true true false, false, false⟩,
    ⟨"name", pString, false, false⟩,
    ⟨"description", pString, true, true⟩ ]

/-- Embedding of `getWalletSchema`. -/
def getWalletSchema : List ZField :=
  [ ⟨"walletId", pUuid, false, false⟩,
    ⟨"includeBalances", pBoolean, true, true⟩ ]

/-- Embedding of `updateWalletSchema`. -/
def updateWalletSchema : List ZField :=
  [ ⟨"walletId", pUuid, false, false⟩,
    ⟨"name", pString, true, true⟩,
    ⟨"description", pString, true, true⟩ ]

/-- Embedding of `deleteWalletSchema`. -/
def deleteWalletSchema : List ZField :=
  [ ⟨"walletId", pUuid, false, false⟩ ]

/-- Embedding of `transferWalletSchema`. -/
def transferWalletSchema : List ZField :=
  [ ⟨"walletId", pUuid, false, false⟩,
    ⟨"destinationAccountAddress", pString, false, false⟩,
    ⟨"transferAmount", pString, true, true⟩,
    ⟨"memo", pString, true, false⟩ ]

/-- Embedding of `delegationSchema`. -/
def delegationSchema : List ZField :=
  [ ⟨"id", pUuid, false, false⟩,
    ⟨"businessId", pUuid, false, false⟩,
    ⟨"escrowWalletId", pUuid, false, false⟩,
    ⟨"delegatorAddress", pString, false, false⟩,
    ⟨"startTime", pNumber false false false, false, true⟩,
    ⟨"endTime", pNumber false false false, false, true⟩,
    ⟨"contractAddresses", pArray pString, true, true⟩,
    ⟨"methods", pArray pString, true, true⟩,
    ⟨"delegationData", pString, false, false⟩,
    ⟨"updated", pNumber false false false, false, false⟩,
    ⟨"created", pNumber false false false, false, false⟩ ]

/-- Embedding of `delegationListSchema`. -/
def delegationListSchema : List ZField :=
  [ ⟨"response", pArray (pObject delegationSchema), false, false⟩,
    ⟨"page", pNumber true true false, false, false⟩,
    ⟨"pageSize", pNumber true true false, false, false⟩,
    ⟨"totalResults", pNumber true false true, false, false⟩ ]

/-- Embedding of `listDelegationsSchema`. -/
def listDelegationsSchema : List ZField :=
  [ ⟨"walletId", pUuid, false, false⟩,
    ⟨"pageSize", pNumber true true false, true, true⟩,
    ⟨"page", pNumber true true false, true, true⟩ ]

/-- Embedding of `createDelegationSchema`. -/
def createDelegationSchema : List ZField :=
  [ ⟨"walletId", pUuid, false, false⟩,
    ⟨"startTime", pNumber false false false, true, true⟩,
    ⟨"endTime", pNumber false false false, true, true⟩,
    ⟨"contractAddresses", pArray pString, true, true⟩,
    ⟨"methods", pArray pString, true, true⟩,
    ⟨"delegationData", pString, false, false⟩ ]

/-- Embedding of `deleteDelegationSchema`. -/
def deleteDelegationSchema : List ZField :=
  [ ⟨"delegationId", pUuid, false, false⟩ ]

/-- Embedding of `getSignatureSchema`. -/
def getSignatureSchema : List ZField :=
  [ ⟨"walletId", pUuid, false, false⟩,
    ⟨"type", pEnum ["erc3009", "permit2"], false, false⟩,
    ⟨"contractAddress", pString, false, false⟩,
    ⟨"destinationAddress", pString, false, false⟩,
    ⟨"amount", pString, true, true⟩,
    ⟨"validUntil", pNumber false false false, true, true⟩,
    ⟨"validAfter", pNumber false false false, true, true⟩,
    ⟨"fromAddress", pString, true, true⟩ ]

/-- Embedding of `signatureResponseSchema`. -/
def signatureResponseSchema : List ZField :=
  [ ⟨"signature", pString, false, false⟩,
    ⟨"data", pString, false, false⟩ ]

/-! Schemas from `src/clients/node/src/validation/contractEvent.ts`. -/

/-- Embedding of `topicSchema`. -/
def topicSchema : List ZField :=
  [ ⟨"name", pString, false, false⟩,
    ⟨"indexed", pBoolean, false, false⟩ ]

/-- Embedding of `contractEventLogSchema`. -/
def contractEventLogSchema : List ZField :=
  [ ⟨"eventName", pString, false, false⟩,
    ⟨"blockNumber", pNumber true false false, false, false⟩,
    ⟨"transactionHash", pString, false, false⟩,
    ⟨"logIndex", pNumber true false false, false, false⟩,
    ⟨"removed", pBoolean, false, false⟩,
    ⟨"topics", pRecordString, false, false⟩ ]

/-- Embedding of `contractEventSchema`. -/
def contractEventSchema : List ZField :=
  [ ⟨"id", pUuid, false, false⟩,
    ⟨"businessId", pUuid, false, false⟩,
    ⟨"chainId", pNumber true false false, false, false⟩,
    ⟨"contractAddress", pString, false, false⟩,
    ⟨"name", pString, false, false⟩,
    ⟨"description", pString, false, false⟩,
    ⟨"eventName", pString, false, false⟩,
    ⟨"topicHash", pString, false, false⟩,
    ⟨"topics", pArray (pObject topicSchema), false, false⟩,
    ⟨"updated", pNumber true false false, false, false⟩,
    ⟨"created", pNumber true false false, false, false⟩ ]

/-- Embedding of `contractEventListSchema`. -/
def contractEventListSchema : List ZField :=
  [ ⟨"response", pArray (pObject contractEventSchema), false, false⟩,
    ⟨"page", pNumber true true false, false, false⟩,
    ⟨"pageSize", pNumber true true false, false, false⟩,
    ⟨"totalResults", pNumber true false true, false, false⟩ ]

/-- Embedding of `createContractEventSchema`. -/
def createContractEventSchema : List ZField :=
  [ ⟨"businessId", pUuid, false, false⟩,
    ⟨"chainId", pNumber true false false, false, false⟩,
    ⟨"contractAddress", pString, false, false⟩,
    ⟨"name", pString, false, false⟩,
    ⟨"description", pString, false, false⟩,
    ⟨"eventName", pString, false, false⟩ ]

/-- Embedding of `listContractEventsSchema`. -/
def listContractEventsSchema : List ZField :=
  [ ⟨"businessId", pUuid, false, false⟩,
    ⟨"pageSize", pNumber true true false, true, true⟩,
    ⟨"page", pNumber true true false, true, true⟩,
    ⟨"chainId", pNumber true false false, true, true⟩,
    ⟨"name", pString, true, true⟩,
    ⟨"status", pEnum ["active", "deleted", "all"], true, true⟩,
    ⟨"contractAddress", pString, true, true⟩,
    ⟨"eventName", pString, true, true⟩ ]

/-- Embedding of `getContractEventSchema`. -/
def getContractEventSchema : List ZField :=
  [ ⟨"contractEventId", pUuid, false, false⟩ ]

/-- Embedding of `updateContractEventSchema`. -/
def updateContractEventSchema : List ZField :=
  [ ⟨"name", pString, true, false⟩,
    ⟨"description", pString, true, false⟩ ]

/-- Embedding of `deleteContractEventSchema`. -/
def deleteContractEventSchema : List ZField :=
  [ ⟨"contractEventId", pUuid, false, false⟩ ]

/-- Embedding of `searchContractEventLogsSchema`. -/
def searchContractEventLogsSchema : List ZField :=
  [ ⟨"startBlock", pNumber true false false, true, true⟩,
    ⟨"endBlock", pNumber true false false, true, true⟩,
    ⟨"topics", pRecordString, true, true⟩ ]

/-- Embedding of `contractEventSearchResultSchema`. -/
def contractEventSearchResultSchema : List ZField :=
  [ ⟨"logs", pArray (pObject contractEventLogSchema), false, false⟩,
    ⟨"error", pString, true, true⟩,
    ⟨"maxResults", pNumber true false false, true, true⟩,
    ⟨"startBlock", pNumber true false false, true, true⟩,
    ⟨"endBlock", pNumber true false false, true, true⟩ ]

/-- Schema for the declared TypeScript result type of the three delete
operations. Modelled from the spec: the repository declares the result of
`Wallets.delete`, `Wallets.deleteDelegation` and `ContractEvents.delete`
only as the TypeScript type `Promise<\x7b success: boolean \x7d>`; there is
no zod schema for it in the source, so this field list transcribes that
declared shape. -/
def successResponseSchema : List ZField :=
  [ ⟨"success", pBoolean, false, false⟩ ]

/-- One HTTP call handed to the injected transport capability. -/
structure HttpCall where
  method : String
  path : String
  body : Option JsonValue

/-- The keys of a call's JSON body object (empty for bodiless calls). -/
def bodyKeys (c : HttpCall) : List String :=
  match c.body with
  | some (.obj l) => keysOf l
  | _ => []

/-- Shared validate-call-validate pipeline of every resource method: parse
the candidate input object (a failure throws before any network access),
derive the single HTTP call, invoke the transport, and post-process the raw
response (`some` = identity for the pass-through operations). The first
component records every transport invocation, the second the returned
value, with `none` modelling a thrown `ZodError`. -/
def runOp (inFields : List ZField) (candidate : JsonValue)
    (mk : JsonValue → HttpCall) (tr : HttpCall → JsonValue)
    (out : JsonValue → Option JsonValue) : List HttpCall × Option JsonValue :=
  match pObject inFields candidate with
  | none => ([], none)
  | some v =>
    let c := mk v
    match out (tr c) with
    | none => ([c], none)
    | some r => ([c], some r)

/-! Operations of the `Wallets` resource client. Explicit identifier
arguments are separate `String` parameters as in the TypeScript signatures;
caller-supplied params objects are raw association lists merged by object
spread, exactly as the source does. -/

/-- Embedding of `Wallets.list`. The query string is built from the raw
caller params, not the validated result. -/
def walletsList (tr : HttpCall → JsonValue) (businessId : String)
    (params : List (String × JsonValue)) : List HttpCall × Option JsonValue :=
  runOp listWalletsSchema
    (.obj (spreadObj [("businessId", .str businessId)] params))
    (fun v => ⟨"GET",
      mkPath ("/business/" ++ jsToString (vGet v "businessId") ++ "/wallets")
        (entriesQuery params), none⟩)
    tr (pObject walletListSchema)

/-- Embedding of `Wallets.create`. The body is assembled from the three
non-identifier fields of the validated params. -/
def walletsCreate (tr : HttpCall → JsonValue) (businessId : String)
    (params : List (String × JsonValue)) : List HttpCall × Option JsonValue :=
  runOp createWalletSchema
    (.obj (spreadObj [("businessId", .str businessId)] params))
    (fun v => ⟨"POST",
      "/business/" ++ jsToString (vGet v "businessId") ++ "/wallets",
      some (.obj [("chainId", vGet v "chainId"), ("name", vGet v "name"),
                  ("description", vGet v "description")])⟩)
    tr (pObject walletSchema)

/-- Embedding of `Wallets.get`. `includeBalances` is a separate argument
placed into the candidate object under its own key. -/
def walletsGet (tr : HttpCall → JsonValue) (walletId : String)
    (includeBalances : JsonValue) : List HttpCall × Option JsonValue :=
  runOp getWalletSchema
    (.obj [("walletId", .str walletId), ("includeBalances", includeBalances)])
    (fun v => ⟨"GET",
      mkPath ("/wallets/" ++ jsToString (vGet v "walletId"))
        (if isLooselyDefined (vGet v "includeBalances") then
          [("includeBalances", jsToString (vGet v "includeBalances"))]
        else []), none⟩)
    tr (pObject walletSchema)

/-- Embedding of `Wallets.update`. -/
def walletsUpdate (tr : HttpCall → JsonValue) (walletId : String)
    (params : List (String × JsonValue)) : List HttpCall × Option JsonValue :=
  runOp updateWalletSchema
    (.obj (spreadObj [("walletId", .str walletId)] params))
    (fun v => ⟨"PUT", "/wallets/" ++ jsToString (vGet v "walletId"),
      some (.obj [("name", vGet v "name"), ("description", vGet v "description")])⟩)
    tr (pObject walletSchema)

/-- Embedding of `Wallets.delete`: the response is returned without
validation. -/
def walletsDelete (tr : HttpCall → JsonValue) (walletId : String) :
    List HttpCall × Option JsonValue :=
  runOp deleteWalletSchema
    (.obj [("walletId", .str walletId)])
    (fun v => ⟨"DELETE", "/wallets/" ++ jsToString (vGet v "walletId"), none⟩)
    tr some

/-- Embedding of `Wallets.transfer`: the `Transaction` response is returned
without validation (opaque pass-through). -/
def walletsTransfer (tr : HttpCall → JsonValue) (walletId : String)
    (params : List (String × JsonValue)) : List HttpCall × Option JsonValue :=
  runOp transferWalletSchema
    (.obj (spreadObj [("walletId", .str walletId)] params))
    (fun v => ⟨"POST", "/wallets/" ++ jsToString (vGet v "walletId") ++ "/transfer",
      some (.obj [("destinationAccountAddress", vGet v "destinationAccountAddress"),
                  ("transferAmount", vGet v "transferAmount"),
                  ("memo", vGet v "memo")])⟩)
    tr some

/-- Embedding of `Wallets.listDelegations`. The query string is built from
the raw caller params, not the validated result. -/
def walletsListDelegations (tr : HttpCall → JsonValue) (walletId : String)
    (params : List (String × JsonValue)) : List HttpCall × Option JsonValue :=
  runOp listDelegationsSchema
    (.obj (spreadObj [("walletId", .str walletId)] params))
    (fun v => ⟨"GET",
      mkPath ("/wallets/" ++ jsToString (vGet v "walletId") ++ "/delegations")
        (entriesQuery params), none⟩)
    tr (pObject delegationListSchema)

/-- Embedding of `Wallets.createDelegation`. -/
def walletsCreateDelegation (tr : HttpCall → JsonValue) (walletId : String)
    (params : List (String × JsonValue)) : List HttpCall × Option JsonValue :=
  runOp createDelegationSchema
    (.obj (spreadObj [("walletId", .str walletId)] params))
    (fun v => ⟨"POST", "/wallets/" ++ jsToString (vGet v "walletId") ++ "/delegations",
      some (.obj [("startTime", vGet v "startTime"), ("endTime", vGet v "endTime"),
                  ("contractAddresses", vGet v "contractAddresses"),
                  ("methods", vGet v "methods"),
                  ("delegationData", vGet v "delegationData")])⟩)
    tr (pObject delegationSchema)

/-- Embedding of `Wallets.deleteDelegation`: the path uses the singular
`/delegation/` segment and the response is returned without validation. -/
def walletsDeleteDelegation (tr : HttpCall → JsonValue) (delegationId : String) :
    List HttpCall × Option JsonValue :=
  runOp deleteDelegationSchema
    (.obj [("delegationId", .str delegationId)])
    (fun v => ⟨"DELETE", "/delegation/" ++ jsToString (vGet v "delegationId"), none⟩)
    tr some

/-- Query parameters of `Wallets.getSignature`: `contractAddress` and
`destinationAddress` are always appended, the four optional parameters only
when neither `undefined` nor `null` on the validated params. -/
def getSignatureQuery (v : JsonValue) : List (String × String) :=
  [("contractAddress", jsToString (vGet v "contractAddress")),
   ("destinationAddress", jsToString (vGet v "destinationAddress"))] ++
  (if isLooselyDefined (vGet v "amount") then
    [("amount", jsToString (vGet v "amount"))] else []) ++
  (if isLooselyDefined (vGet v "validUntil") then
    [("validUntil", jsToString (vGet v "validUntil"))] else []) ++
  (if isLooselyDefined (vGet v "validAfter") then
    [("validAfter", jsToString (vGet v "validAfter"))] else []) ++
  (if isLooselyDefined (vGet v "fromAddress") then
    [("fromAddress", jsToString (vGet v "fromAddress"))] else [])

/-- Embedding of `Wallets.getSignature`. The source appends the query
string to the path unconditionally. -/
def walletsGetSignature (tr : HttpCall → JsonValue) (walletId ty : String)
    (params : List (String × JsonValue)) : List HttpCall × Option JsonValue :=
  runOp getSignatureSchema
    (.obj (spreadObj [("walletId", .str walletId), ("type", .str ty)] params))
    (fun v => ⟨"GET",
      "/wallets/" ++ jsToString (vGet v "walletId") ++ "/signature/" ++
        jsToString (vGet v "type") ++ "?" ++ renderQuery (getSignatureQuery v),
      none⟩)
    tr (pObject signatureResponseSchema)

/-! Operations of the `ContractEvents` resource client. -/

/-- Embedding of `ContractEvents.create`. The whole validated params object
is passed as the request body. -/
def contractEventsCreate (tr : HttpCall → JsonValue) (businessId : String)
    (params : List (String × JsonValue)) : List HttpCall × Option JsonValue :=
  runOp createContractEventSchema
    (.obj (spreadObj [("businessId", .str businessId)] params))
    (fun v => ⟨"POST", "/business/" ++ jsToString (vGet v "businessId") ++ "/events",
      some v⟩)
    tr (pObject contractEventSchema)

/-- Query parameters of `ContractEvents.list`, appended from the validated
params field by field in source order, each guarded by the strict
`!== undefined && !== null` pair of checks. -/
def contractEventsListQuery (v : JsonValue) : List (String × String) :=
  (if isLooselyDefined (vGet v "pageSize") then
    [("pageSize", jsToString (vGet v "pageSize"))] else []) ++
  (if isLooselyDefined (vGet v "page") then
    [("page", jsToString (vGet v "page"))] else []) ++
  (if isLooselyDefined (vGet v "chainId") then
    [("chainId", jsToString (vGet v "chainId"))] else []) ++
  (if isLooselyDefined (vGet v "name") then
    [("name", jsToString (vGet v "name"))] else []) ++
  (if isLooselyDefined (vGet v "status") then
    [("status", jsToString (vGet v "status"))] else []) ++
  (if isLooselyDefined (vGet v "contractAddress") then
    [("contractAddress", jsToString (vGet v "contractAddress"))] else []) ++
  (if isLooselyDefined (vGet v "eventName") then
    [("eventName", jsToString (vGet v "eventName"))] else [])

/-- Embedding of `ContractEvents.list`. -/
def contractEventsList (tr : HttpCall → JsonValue) (businessId : String)
    (params : List (String × JsonValue)) : List HttpCall × Option JsonValue :=
  runOp listContractEventsSchema
    (.obj (spreadObj [("businessId", .str businessId)] params))
    (fun v => ⟨"GET",
      mkPath ("/business/" ++ jsToString (vGet v "businessId") ++ "/events")
        (contractEventsListQuery v), none⟩)
    tr (pObject contractEventListSchema)

/-- Embedding of `ContractEvents.get`. -/
def contractEventsGet (tr : HttpCall → JsonValue) (contractEventId : String) :
    List HttpCall × Option JsonValue :=
  runOp getContractEventSchema
    (.obj [("contractEventId", .str contractEventId)])
    (fun v => ⟨"GET", "/events/" ++ jsToString (vGet v "contractEventId"), none⟩)
    tr (pObject contractEventSchema)

/-- Embedding of `ContractEvents.update`. Only the params object is
validated; the raw `contractEventId` argument is interpolated into the path
without any UUID check, and the whole validated params object is the body. -/
def contractEventsUpdate (tr : HttpCall → JsonValue) (contractEventId : String)
    (params : List (String × JsonValue)) : List HttpCall × Option JsonValue :=
  runOp updateContractEventSchema (.obj params)
    (fun v => ⟨"PUT", "/events/" ++ contractEventId, some v⟩)
    tr (pObject contractEventSchema)

/-- Embedding of `ContractEvents.delete`: the response is returned without
validation. -/
def contractEventsDelete (tr : HttpCall → JsonValue) (contractEventId : String) :
    List HttpCall × Option JsonValue :=
  runOp deleteContractEventSchema
    (.obj [("contractEventId", .str contractEventId)])
    (fun v => ⟨"DELETE", "/events/" ++ jsToString (vGet v "contractEventId"), none⟩)
    tr some

/-- JavaScript truthiness, as used by the `params || \x7b\x7d` default in
`ContractEvents.searchLogs`. -/
def isTruthy : JsonValue → Bool
  | .undefined => false
  | .null => false
  | .bool b => b
  | .num q => !(q == 0)
  | .str s => !(s == "")
  | _ => true

/-- Embedding of `ContractEvents.searchLogs`. A missing params argument
(`undefined`) defaults to the empty object before validation; the raw
`contractEventId` is interpolated into the path without any UUID check. -/
def contractEventsSearchLogs (tr : HttpCall → JsonValue) (contractEventId : String)
    (params : JsonValue) : List HttpCall × Option JsonValue :=
  runOp searchContractEventLogsSchema
    (if isTruthy params then params else .obj [])
    (fun v => ⟨"POST", "/events/" ++ contractEventId ++ "/search", some v⟩)
    tr (pObject contractEventSearchResultSchema)

mutual

/-- Wire image of a value under `JSON.stringify`, which the transport
applies to request bodies: object properties whose value is `undefined`
are dropped entirely, `null` properties are kept, and `undefined` array
elements become `null`. -/
def jsonSerialize : JsonValue → JsonValue
  | .obj l => .obj (serializeFields l)
  | .arr xs => .arr (serializeElems xs)
  | v => v

def serializeFields : List (String × JsonValue) → List (String × JsonValue)
  | [] => []
  | (_, .undefined) :: rest => serializeFields rest
  | (k, v) :: rest => (k, jsonSerialize v) :: serializeFields rest

def serializeElems : List JsonValue → List JsonValue
  | [] => []
  | .undefined :: rest => .null :: serializeElems rest
  | v :: rest => jsonSerialize v :: serializeElems rest

end

/-- Wire image of a call's body: what the transport actually puts on the
network after JSON-encoding, `none` for bodiless calls. -/
def serializedBody (c : HttpCall) : Option JsonValue :=
  c.body.map jsonSerialize

mutual

/-- Deep equality of JavaScript values as a test-framework `deepEqual`
would report it: object property order is irrelevant, everything else is
structural. -/
inductive DeepEquiv : JsonValue → JsonValue → Prop where
  | base (v : JsonValue) : DeepEquiv v v
  | arr {xs ys : List JsonValue} : DeepEquivList xs ys →
      DeepEquiv (.arr xs) (.arr ys)
  | obj {a b : List (String × JsonValue)} (b' : List (String × JsonValue)) :
      b.Perm b' → DeepEquivFields a b' → DeepEquiv (.obj a) (.obj b)

inductive DeepEquivList : List JsonValue → List JsonValue → Prop where
  | nil : DeepEquivList [] []
  | cons {v w : JsonValue} {r1 r2 : List JsonValue} : DeepEquiv v w →
      DeepEquivList r1 r2 → DeepEquivList (v :: r1) (w :: r2)

inductive DeepEquivFields :
    List (String × JsonValue) → List (String × JsonValue) → Prop where
  | nil : DeepEquivFields [] []
  | cons {k : String} {v w : JsonValue} {r1 r2 : List (String × JsonValue)} :
      DeepEquiv v w → DeepEquivFields r1 r2 →
      DeepEquivFields ((k, v) :: r1) ((k, w) :: r2)

end

/-! Decidable conformance checkers used to state claim C9. They transcribe
the wallet schemas field by field: an object conforms exactly when its keys
are precisely the declared keys (in any property order, without
duplicates) and every field value satisfies its declared constraint. -/

/-- Whether a value is a string. -/
def isStrB : JsonValue → Bool
  | .str _ => true
  | _ => false

/-- Whether a value is a UUID-formatted string. -/
def isUuidB : JsonValue → Bool
  | .str s => isUUID s
  | _ => false

/-- Whether a value is a boolean. -/
def isBoolB : JsonValue → Bool
  | .bool _ => true
  | _ => false

/-- Whether a value is a number satisfying the given zod refinements. -/
def numCheckB (int pos nonneg : Bool) : JsonValue → Bool
  | .num q => (!int || q.den == 1) && (!pos || decide (0 < q)) && (!nonneg || decide (0 ≤ q))
  | _ => false

/-- Whether a value is the integer number zero (the balance `type`
discriminator). -/
def isZeroNumB : JsonValue → Bool
  | .num q => q.den == 1 && q == 0
  | _ => false

/-- Lift a checker over a `.nullable()` field: `null` is accepted. -/
def orNullB (p : JsonValue → Bool) (v : JsonValue) : Bool :=
  match v with
  | .null => true
  | v => p v

/-- Whether an association list has pairwise distinct keys (JavaScript
objects always do). -/
def nodupKeysB : List (String × JsonValue) → Bool
  | [] => true
  | p :: rest => !(rest.any (fun q => q.1 == p.1)) && nodupKeysB rest

/-- Whether two key lists contain exactly the same keys. -/
def sameKeySetB (ks ns : List String) : Bool :=
  ns.all (fun n => ks.any (fun k => k == n)) &&
    ks.all (fun k => ns.any (fun n => n == k))

/-- Exact conformance to `accountBalanceDetailsSchema`: all seven declared
fields present and valid, no extra fields. -/
def conformsExactBalance (v : JsonValue) : Bool :=
  match v with
  | .obj l =>
    nodupKeysB l && sameKeySetB (keysOf l) (accountBalanceDetailsSchema.map ZField.name) &&
      isZeroNumB (jsGet l "type") && isStrB (jsGet l "ticker") &&
      numCheckB true true false (jsGet l "chainId") && isStrB (jsGet l "tokenAddress") &&
      isStrB (jsGet l "accountAddress") && isStrB (jsGet l "balance") &&
      numCheckB true false true (jsGet l "decimals")
  | _ => false

/-- Exact conformance to `walletSchema`: all twelve declared fields present
and valid (`null` only where the schema is nullable), no extra fields. -/
def conformsExactWallet (v : JsonValue) : Bool :=
  match v with
  | .obj l =>
    nodupKeysB l && sameKeySetB (keysOf l) (walletSchema.map ZField.name) &&
      isUuidB (jsGet l "id") && isStrB (jsGet l "accountAddress") &&
      orNullB isUuidB (jsGet l "businessId") && orNullB isUuidB (jsGet l "userId") &&
      numCheckB true true false (jsGet l "chainId") && isStrB (jsGet l "name") &&
      isStrB (jsGet l "description") && isBoolB (jsGet l "isAdmin") &&
      orNullB conformsExactBalance (jsGet l "accountBalanceDetails") &&
      orNullB isStrB (jsGet l "erc7702ContractAddress") &&
      numCheckB false false false (jsGet l "updated") &&
      numCheckB false false false (jsGet l "created")
  | _ => false

/-! Concrete data used by counterexamples and witnesses. -/

/-- A syntactically valid UUID. -/
def uuidA : String := "11111111-1111-1111-1111-111111111111"

/-- Another syntactically valid UUID. -/
def uuidB : String := "22222222-2222-2222-2222-222222222222"

/-- A transport oracle answering every call with the same fixed value. -/
def constTr (v : JsonValue) : HttpCall → JsonValue := fun _ => v

/-- A fully valid `ContractEvent` response value, with fields in schema
declaration order. -/
def sampleContractEvent : JsonValue :=
  .obj [("id", .str uuidA), ("businessId", .str uuidB), ("chainId", .num 1),
        ("contractAddress", .str "0xc0ffee"), ("name", .str "watcher"),
        ("description", .str "demo"), ("eventName", .str "Transfer"),
        ("topicHash", .str "0xhash"),
        ("topics", .arr [.obj [("name", .str "from"), ("indexed", .bool true)]]),
        ("updated", .num 0), ("created", .num 0)]

/-- A valid wallet object whose properties are deliberately NOT in schema
declaration order (`chainId` first), to exercise order-insensitivity of
exact conformance. -/
def sampleWallet : JsonValue :=
  .obj [("chainId", .num 5), ("id", .str uuidA), ("accountAddress", .str "0xacc"),
        ("businessId", .null), ("userId", .null), ("name", .str "main"),
        ("description", .str ""), ("isAdmin", .bool false),
        ("accountBalanceDetails", .null), ("erc7702ContractAddress", .null),
        ("updated", .num 1), ("created", .num 1)]

/-- A valid `SignatureResponse` value in schema order. -/
def sampleSignatureResponse : JsonValue :=
  .obj [("signature", .str "0xsig"), ("data", .str "0xdata")]

/-- A valid `ContractEventSearchResult` with no logs. -/
def sampleSearchResult : JsonValue :=
  .obj [("logs", .arr [])]

/-! Helper lemmas about the pipeline and the JavaScript object model. -/

theorem runOp_input_invalid {inF : List ZField} {cand : JsonValue}
    {mk : JsonValue → HttpCall} {tr : HttpCall → JsonValue}
    {out : JsonValue → Option JsonValue} (h : pObject inF cand = none) :
    runOp inF cand mk tr out = ([], none) := by
  simp [runOp, h]

theorem runOp_input_valid {inF : List ZField} {cand v : JsonValue}
    {mk : JsonValue → HttpCall} {tr : HttpCall → JsonValue}
    {out : JsonValue → Option JsonValue} (h : pObject inF cand = some v) :
    runOp inF cand mk tr out = ([mk v], out (tr (mk v))) := by
  cases hout : out (tr (mk v)) <;> simp [runOp, h, hout]

theorem hasKeyB_append {l1 l2 : List (String × JsonValue)} {k : String} :
    hasKeyB (l1 ++ l2) k = (hasKeyB l1 k || hasKeyB l2 k) := by
  simp [hasKeyB, List.any_append]

theorem jsGet_append_single_ne {l : List (String × JsonValue)} {k : String}
    {v : JsonValue} {k' : String} (h : k ≠ k') :
    jsGet (l ++ [(k, v)]) k' = jsGet l k' := by
  induction l with
  | nil => simp [jsGet, h]
  | cons p rest ih => by_cases hp : p.1 = k' <;> simp [jsGet, hp, ih]

theorem jsGet_mapSet_ne {l : List (String × JsonValue)} {k : String}
    {v : JsonValue} {k' : String} (h : k ≠ k') :
    jsGet (l.map fun p => if p.1 = k then (k, v) else p) k' = jsGet l k' := by
  induction l with
  | nil => rfl
  | cons p rest ih =>
    by_cases hp : p.1 = k
    · simp [jsGet, hp, h, Ne.symm h, ih]
    · by_cases hp' : p.1 = k' <;> simp [jsGet, hp, hp', ih, Ne.symm h]

theorem jsGet_setKey_ne {l : List (String × JsonValue)} {k : String}
    {v : JsonValue} {k' : String} (h : k ≠ k') :
    jsGet (setKey l k v) k' = jsGet l k' := by
  unfold setKey
  split
  · exact jsGet_mapSet_ne h
  · exact jsGet_append_single_ne h

theorem jsGet_spreadObj_of_not_hasKey {ext : List (String × JsonValue)}
    (base : List (String × JsonValue)) {k : String}
    (hk : hasKeyB ext k = false) :
    jsGet (spreadObj base ext) k = jsGet base k := by
  induction ext generalizing base with
  | nil => rfl
  | cons p rest ih =>
    have hh : ¬(p.1 = k) ∧ hasKeyB rest k = false := by
      simpa [hasKeyB, List.any_cons] using hk
    show jsGet (spreadObj (setKey base p.1 p.2) rest) k = jsGet base k
    rw [ih _ hh.2, jsGet_setKey_ne hh.1]

theorem setKey_of_not_hasKey {l : List (String × JsonValue)} {k : String}
    {v : JsonValue} (h : hasKeyB l k = false) :
    setKey l k v = l ++ [(k, v)] := by
  unfold setKey
  have hb : l.any (fun p => p.1 == k) = false := h
  simp [hb]

theorem nodupKeysB_cons {p : String × JsonValue} {rest : List (String × JsonValue)}
    (h : nodupKeysB (p :: rest) = true) :
    (∀ q ∈ rest, ¬(q.1 = p.1)) ∧ nodupKeysB rest = true := by
  simpa [nodupKeysB, List.any_eq_true] using h

theorem spreadObj_disjoint {ext : List (String × JsonValue)}
    (base : List (String × JsonValue))
    (hd : ∀ p ∈ ext, hasKeyB base p.1 = false)
    (hn : nodupKeysB ext = true) : spreadObj base ext = base ++ ext := by
  induction ext generalizing base with
  | nil => simp [spreadObj]
  | cons p rest ih =>
    obtain ⟨k, v⟩ := p
    obtain ⟨hnp, hnr⟩ := nodupKeysB_cons hn
    show spreadObj (setKey base k v) rest = base ++ (k, v) :: rest
    rw [setKey_of_not_hasKey (hd (k, v) (by simp))]
    rw [ih (base ++ [(k, v)]) ?_ hnr]
    · simp
    · intro q hq
      rw [hasKeyB_append]
      have h1 : hasKeyB base q.1 = false := hd q (by simp [hq])
      have h2 : hasKeyB [(k, v)] q.1 = false := by
        simp [hasKeyB]
        exact fun hc => (hnp q hq (by simp [hc])).elim
      simp [h1, h2]

theorem pObject_uuid_head_invalid {rest : List ZField}
    {l : List (String × JsonValue)} {id k : String}
    (hget : jsGet l k = .str id) (h : isUUID id = false) :
    pObject (⟨k, pUuid, false, false⟩ :: rest) (.obj l) = none := by
  simp [pObject, parseFields, parseFieldVal, hget, pUuid, h]

/-- C1 (amended): every resource-client operation that takes an entity ID
validates it as a UUID before any transport call — with the exception of
`ContractEvents.update` and `ContractEvents.searchLogs`, which interpolate
the raw `contractEventId` into the path without validation (see the
counterexample). For each of the fourteen validating operations, an invalid
ID makes the operation raise a validation error (`none`) with zero
transport invocations; the `hasKeyB` hypotheses say that the caller's
params object does not smuggle in its own identifier key, which object
spread would let override the explicit argument. -/
theorem c1_uuid_validated_before_request :
    (∀ tr bid params, hasKeyB params "businessId" = false → isUUID bid = false →
      walletsList tr bid params = ([], none)) ∧
    (∀ tr bid params, hasKeyB params "businessId" = false → isUUID bid = false →
      walletsCreate tr bid params = ([], none)) ∧
    (∀ tr wid ib, isUUID wid = false → walletsGet tr wid ib = ([], none)) ∧
    (∀ tr wid params, hasKeyB params "walletId" = false → isUUID wid = false →
      walletsUpdate tr wid params = ([], none)) ∧
    (∀ tr wid, isUUID wid = false → walletsDelete tr wid = ([], none)) ∧
    (∀ tr wid params, hasKeyB params "walletId" = false → isUUID wid = false →
      walletsTransfer tr wid params = ([], none)) ∧
    (∀ tr wid params, hasKeyB params "walletId" = false → isUUID wid = false →
      walletsListDelegations tr wid params = ([], none)) ∧
    (∀ tr wid params, hasKeyB params "walletId" = false → isUUID wid = false →
      walletsCreateDelegation tr wid params = ([], none)) ∧
    (∀ tr did, isUUID did = false → walletsDeleteDelegation tr did = ([], none)) ∧
    (∀ tr wid ty params, hasKeyB params "walletId" = false → isUUID wid = false →
      walletsGetSignature tr wid ty params = ([], none)) ∧
    (∀ tr bid params, hasKeyB params "businessId" = false → isUUID bid = false →
      contractEventsCreate tr bid params = ([], none)) ∧
    (∀ tr bid params, hasKeyB params "businessId" = false → isUUID bid = false →
      contractEventsList tr bid params = ([], none)) ∧
    (∀ tr cid, isUUID cid = false → contractEventsGet tr cid = ([], none)) ∧
    (∀ tr cid, isUUID cid = false → contractEventsDelete tr cid = ([], none)) := by
  refine ⟨?_, ?_, ?_, ?_, ?_, ?_, ?_, ?_, ?_, ?_, ?_, ?_, ?_, ?_⟩
  case _ =>
    intro tr bid params hk h
    unfold walletsList
    apply runOp_input_invalid
    exact pObject_uuid_head_invalid
      (by rw [jsGet_spreadObj_of_not_hasKey _ hk]; simp [jsGet]) h
  case _ =>
    intro tr bid params hk h
    unfold walletsCreate
    apply runOp_input_invalid
    exact pObject_uuid_head_invalid
      (by rw [jsGet_spreadObj_of_not_hasKey _ hk]; simp [jsGet]) h
  case _ =>
    intro tr wid ib h
    unfold walletsGet
    apply runOp_input_invalid
    exact pObject_uuid_head_invalid (by simp [jsGet]) h
  case _ =>
    intro tr wid params hk h
    unfold walletsUpdate
    apply runOp_input_invalid
    exact pObject_uuid_head_invalid
      (by rw [jsGet_spreadObj_of_not_hasKey _ hk]; simp [jsGet]) h
  case _ =>
    intro tr wid h
    unfold walletsDelete
    apply runOp_input_invalid
    exact pObject_uuid_head_invalid (by simp [jsGet]) h
  case _ =>
    intro tr wid params hk h
    unfold walletsTransfer
    apply runOp_input_invalid
    exact pObject_uuid_head_invalid
      (by rw [jsGet_spreadObj_of_not_hasKey _ hk]; simp [jsGet]) h
  case _ =>
    intro tr wid params hk h
    unfold walletsListDelegations
    apply runOp_input_invalid
    exact pObject_uuid_head_invalid
      (by rw [jsGet_spreadObj_of_not_hasKey _ hk]; simp [jsGet]) h
  case _ =>
    intro tr wid params hk h
    unfold walletsCreateDelegation
    apply runOp_input_invalid
    exact pObject_uuid_head_invalid
      (by rw [jsGet_spreadObj_of_not_hasKey _ hk]; simp [jsGet]) h
  case _ =>
    intro tr did h
    unfold walletsDeleteDelegation
    apply runOp_input_invalid
    exact pObject_uuid_head_invalid (by simp [jsGet]) h
  case _ =>
    intro tr wid ty params hk h
    unfold walletsGetSignature
    apply runOp_input_invalid
    exact pObject_uuid_head_invalid
      (by rw [jsGet_spreadObj_of_not_hasKey _ hk]; simp [jsGet]) h
  case _ =>
    intro tr bid params hk h
    unfold contractEventsCreate
    apply runOp_input_invalid
    exact pObject_uuid_head_invalid
      (by rw [jsGet_spreadObj_of_not_hasKey _ hk]; simp [jsGet]) h
  case _ =>
    intro tr bid params hk h
    unfold contractEventsList
    apply runOp_input_invalid
    exact pObject_uuid_head_invalid
      (by rw [jsGet_spreadObj_of_not_hasKey _ hk]; simp [jsGet]) h
  case _ =>
    intro tr cid h
    unfold contractEventsGet
    apply runOp_input_invalid
    exact pObject_uuid_head_invalid (by simp [jsGet]) h
  case _ =>
    intro tr cid h
    unfold contractEventsDelete
    apply runOp_input_invalid
    exact pObject_uuid_head_invalid (by simp [jsGet]) h

/-- C1 counterexample: `ContractEvents.update` does NOT validate its
`contractEventId`. Called with the non-UUID string `not-a-uuid`, it issues
one PUT to `/events/not-a-uuid` — the transport IS invoked — and, when the
server answers with a valid contract event, it returns successfully
instead of raising a validation error. -/
theorem c1_update_skips_uuid_validation :
    isUUID "not-a-uuid" = false ∧
    contractEventsUpdate (constTr sampleContractEvent) "not-a-uuid"
        [("name", .str "x")] =
      ([⟨"PUT", "/events/not-a-uuid", some (.obj [("name", .str "x")])⟩],
        some sampleContractEvent) := by
  exact ⟨rfl, rfl⟩

/-- Witness for C1: the amended theorem's hypotheses are satisfiable. -/
theorem c1_uuid_validated_before_request_witness :
    walletsList (constTr sampleWallet) "bad" [("name", .str "x")] = ([], none) ∧
    contractEventsGet (constTr sampleContractEvent) "bad" = ([], none) :=
  ⟨c1_uuid_validated_before_request.1 (constTr sampleWallet) "bad"
      [("name", .str "x")] rfl rfl,
    c1_uuid_validated_before_request.2.2.2.2.2.2.2.2.2.2.2.2.1
      (constTr sampleContractEvent) "bad" rfl⟩

theorem runOp_output_validated {inF : List ZField} {cand : JsonValue}
    {mk : JsonValue → HttpCall} {tr : HttpCall → JsonValue}
    {out : JsonValue → Option JsonValue} {r : JsonValue}
    (h : (runOp inF cand mk tr out).2 = some r) :
    ∃ c, (runOp inF cand mk tr out).1 = [c] ∧ out (tr c) = some r := by
  rcases hp : pObject inF cand with _ | v
  · rw [runOp_input_invalid hp] at h
    exact absurd h (by simp)
  · rw [runOp_input_valid hp] at h ⊢
    exact ⟨mk v, rfl, h⟩

theorem runOp_passthrough {inF : List ZField} {cand : JsonValue}
    {mk : JsonValue → HttpCall} {tr : HttpCall → JsonValue} {r : JsonValue}
    (h : (runOp inF cand mk tr some).2 = some r) :
    ∃ c, (runOp inF cand mk tr some).1 = [c] ∧ r = tr c := by
  rcases hp : pObject inF cand with _ | v
  · rw [runOp_input_invalid hp] at h
    exact absurd h (by simp)
  · rw [runOp_input_valid hp] at h ⊢
    exact ⟨mk v, rfl, (Option.some_inj.mp h).symm⟩

/-- C2 (amended): whenever an operation returns a value, that value came
out of validating the raw transport response against the operation's
output schema — for every operation EXCEPT the opaque pass-throughs:
`Wallets.transfer` (exempted by the claim) and also `Wallets.delete`,
`Wallets.deleteDelegation` and `ContractEvents.delete`, which return the
raw transport value unvalidated (last four conjuncts; see the
counterexample). -/
theorem c2_responses_validated :
    (∀ tr bid params r, (walletsList tr bid params).2 = some r →
      ∃ c, (walletsList tr bid params).1 = [c] ∧
        pObject walletListSchema (tr c) = some r) ∧
    (∀ tr bid params r, (walletsCreate tr bid params).2 = some r →
      ∃ c, (walletsCreate tr bid params).1 = [c] ∧
        pObject walletSchema (tr c) = some r) ∧
    (∀ tr wid ib r, (walletsGet tr wid ib).2 = some r →
      ∃ c, (walletsGet tr wid ib).1 = [c] ∧
        pObject walletSchema (tr c) = some r) ∧
    (∀ tr wid params r, (walletsUpdate tr wid params).2 = some r →
      ∃ c, (walletsUpdate tr wid params).1 = [c] ∧
        pObject walletSchema (tr c) = some r) ∧
    (∀ tr wid params r, (walletsListDelegations tr wid params).2 = some r →
      ∃ c, (walletsListDelegations tr wid params).1 = [c] ∧
        pObject delegationListSchema (tr c) = some r) ∧
    (∀ tr wid params r, (walletsCreateDelegation tr wid params).2 = some r →
      ∃ c, (walletsCreateDelegation tr wid params).1 = [c] ∧
        pObject delegationSchema (tr c) = some r) ∧
    (∀ tr wid ty params r, (walletsGetSignature tr wid ty params).2 = some r →
      ∃ c, (walletsGetSignature tr wid ty params).1 = [c] ∧
        pObject signatureResponseSchema (tr c) = some r) ∧
    (∀ tr bid params r, (contractEventsCreate tr bid params).2 = some r →
      ∃ c, (contractEventsCreate tr bid params).1 = [c] ∧
        pObject contractEventSchema (tr c) = some r) ∧
    (∀ tr bid params r, (contractEventsList tr bid params).2 = some r →
      ∃ c, (contractEventsList tr bid params).1 = [c] ∧
        pObject contractEventListSchema (tr c) = some r) ∧
    (∀ tr cid r, (contractEventsGet tr cid).2 = some r →
      ∃ c, (contractEventsGet tr cid).1 = [c] ∧
        pObject contractEventSchema (tr c) = some r) ∧
    (∀ tr cid params r, (contractEventsUpdate tr cid params).2 = some r →
      ∃ c, (contractEventsUpdate tr cid params).1 = [c] ∧
        pObject contractEventSchema (tr c) = some r) ∧
    (∀ tr cid params r, (contractEventsSearchLogs tr cid params).2 = some r →
      ∃ c, (contractEventsSearchLogs tr cid params).1 = [c] ∧
        pObject contractEventSearchResultSchema (tr c) = some r) ∧
    (∀ tr wid r, (walletsDelete tr wid).2 = some r →
      ∃ c, (walletsDelete tr wid).1 = [c] ∧ r = tr c) ∧
    (∀ tr wid params r, (walletsTransfer tr wid params).2 = some r →
      ∃ c, (walletsTransfer tr wid params).1 = [c] ∧ r = tr c) ∧
    (∀ tr did r, (walletsDeleteDelegation tr did).2 = some r →
      ∃ c, (walletsDeleteDelegation tr did).1 = [c] ∧ r = tr c) ∧
    (∀ tr cid r, (contractEventsDelete tr cid).2 = some r →
      ∃ c, (contractEventsDelete tr cid).1 = [c] ∧ r = tr c) :=
  ⟨fun _ _ _ _ h => runOp_output_validated h,
   fun _ _ _ _ h => runOp_output_validated h,
   fun _ _ _ _ h => runOp_output_validated h,
   fun _ _ _ _ h => runOp_output_validated h,
   fun _ _ _ _ h => runOp_output_validated h,
   fun _ _ _ _ h => runOp_output_validated h,
   fun _ _ _ _ _ h => runOp_output_validated h,
   fun _ _ _ _ h => runOp_output_validated h,
   fun _ _ _ _ h => runOp_output_validated h,
   fun _ _ _ h => runOp_output_validated h,
   fun _ _ _ _ h => runOp_output_validated h,
   fun _ _ _ _ h => runOp_output_validated h,
   fun _ _ _ h => runOp_passthrough h,
   fun _ _ _ _ h => runOp_passthrough h,
   fun _ _ _ h => runOp_passthrough h,
   fun _ _ _ h => runOp_passthrough h⟩

/-- C2 counterexample: `ContractEvents.delete` returns the raw transport
value without validating it. A response object with a single unrelated key
and no `success` field is returned as-is, even though it does not conform
to the operation's declared result shape. -/
theorem c2_delete_returns_unvalidated :
    (contractEventsDelete (constTr (.obj [("weird", .num 1)])) uuidB).2 =
      some (.obj [("weird", .num 1)]) ∧
    pObject successResponseSchema (.obj [("weird", .num 1)]) = none :=
  ⟨rfl, rfl⟩

/-- Witness for C2: the amended theorem's hypotheses are satisfiable. -/
theorem c2_responses_validated_witness :
    ∃ c, (walletsGetSignature (constTr sampleSignatureResponse) uuidA "erc3009"
        [("contractAddress", .str "0xtok"), ("destinationAddress", .str "0xdst")]).1 =
        [c] ∧
      pObject signatureResponseSchema
        (constTr sampleSignatureResponse c) = some sampleSignatureResponse :=
  c2_responses_validated.2.2.2.2.2.2.1 (constTr sampleSignatureResponse) uuidA
    "erc3009" [("contractAddress", .str "0xtok"), ("destinationAddress", .str "0xdst")]
    sampleSignatureResponse rfl

theorem runOp_mem_calls {inF : List ZField} {cand : JsonValue}
    {mk : JsonValue → HttpCall} {tr : HttpCall → JsonValue}
    {out : JsonValue → Option JsonValue} {c : HttpCall}
    (h : c ∈ (runOp inF cand mk tr out).1) :
    ∃ v, pObject inF cand = some v ∧ c = mk v := by
  rcases hp : pObject inF cand with _ | v
  · rw [runOp_input_invalid hp] at h
    simp at h
  · rw [runOp_input_valid hp] at h
    simp at h
    exact ⟨v, rfl, h⟩

theorem pObject_shape {fs : List ZField} {cand v : JsonValue}
    (h : pObject fs cand = some v) :
    ∃ l out, cand = .obj l ∧ parseFields fs l = some out ∧ v = .obj out := by
  cases cand <;> simp [pObject] at h
  case obj l =>
    rcases hpf : parseFields fs l with _ | out
    · rw [hpf] at h
      simp at h
    · rw [hpf] at h
      simp at h
      exact ⟨l, out, rfl, hpf, h.symm⟩

theorem parseFields_keys_sub {fs : List ZField} {l out : List (String × JsonValue)}
    (h : parseFields fs l = some out) :
    ∀ k ∈ keysOf out, ∃ f ∈ fs, f.name = k := by
  induction fs generalizing out with
  | nil =>
    simp [parseFields] at h
    subst h
    simp [keysOf]
  | cons f rest ih =>
    rcases hv : parseFieldVal f (jsGet l f.name) with _ | w <;>
      rcases hr : parseFields rest l with _ | ws <;>
        simp [parseFields, hv, hr] at h
    intro k hk
    by_cases hcond : hasKeyB l f.name = true ∨ w.isUndefined = false
    · rw [if_pos hcond] at h
      subst h
      simp only [keysOf, List.map_cons, List.mem_cons] at hk
      rcases hk with hk | hk
      · exact ⟨f, by simp, hk.symm⟩
      · obtain ⟨g, hg, hgk⟩ := ih hr k hk
        exact ⟨g, by simp [hg], hgk⟩
    · rw [if_neg hcond] at h
      subst h
      obtain ⟨g, hg, hgk⟩ := ih hr k hk
      exact ⟨g, by simp [hg], hgk⟩

theorem parseFields_uuid_head_mem {k : String} {rest : List ZField}
    {l out : List (String × JsonValue)}
    (h : parseFields (⟨k, pUuid, false, false⟩ :: rest) l = some out) :
    k ∈ keysOf out := by
  rcases hg : jsGet l k with _ | _ | b | q | s | xs | ol <;>
    simp [parseFields, parseFieldVal, hg, pUuid] at h
  cases hu : isUUID s
  · rw [hu] at h
    simp at h
  · rw [hu] at h
    rcases hr : parseFields rest l with _ | ws
    · rw [hr] at h
      simp at h
    · rw [hr] at h
      simp [JsonValue.isUndefined] at h
      subst h
      simp [keysOf]

/-- C3 (amended): no `Wallets` operation duplicates a path identifier into
the request body — `create` sends exactly the keys chainId/name/description
(`description` carrying `undefined` when omitted, hence absent from the
serialized JSON), `update`, `transfer` and `createDelegation` send exactly
their non-identifier keys, and the list operations send no body at all.
`ContractEvents.update`/`searchLogs` bodies contain only schema keys. But
`ContractEvents.create` passes the whole validated object as the body, so
its POST body DOES contain `businessId` (last conjunct; see the
counterexample). -/
theorem c3_path_ids_not_in_body :
    (∀ tr bid params c, c ∈ (walletsCreate tr bid params).1 →
      bodyKeys c = ["chainId", "name", "description"]) ∧
    (∀ tr wid params c, c ∈ (walletsUpdate tr wid params).1 →
      bodyKeys c = ["name", "description"]) ∧
    (∀ tr wid params c, c ∈ (walletsTransfer tr wid params).1 →
      bodyKeys c = ["destinationAccountAddress", "transferAmount", "memo"]) ∧
    (∀ tr wid params c, c ∈ (walletsCreateDelegation tr wid params).1 →
      bodyKeys c = ["startTime", "endTime", "contractAddresses", "methods",
        "delegationData"]) ∧
    (∀ tr bid params c, c ∈ (walletsList tr bid params).1 → c.body = none) ∧
    (∀ tr wid params c, c ∈ (walletsListDelegations tr wid params).1 →
      c.body = none) ∧
    (∀ tr bid params c, c ∈ (contractEventsList tr bid params).1 →
      c.body = none) ∧
    (∀ tr cid params c, c ∈ (contractEventsUpdate tr cid params).1 →
      ∀ k ∈ bodyKeys c, k = "name" ∨ k = "description") ∧
    (∀ tr cid params c, c ∈ (contractEventsSearchLogs tr cid params).1 →
      ∀ k ∈ bodyKeys c, k = "startBlock" ∨ k = "endBlock" ∨ k = "topics") ∧
    (∀ tr bid params c, c ∈ (contractEventsCreate tr bid params).1 →
      "businessId" ∈ bodyKeys c) := by
  refine ⟨?_, ?_, ?_, ?_, ?_, ?_, ?_, ?_, ?_, ?_⟩
  case _ =>
    intro tr bid params c h
    obtain ⟨v, _, hc⟩ := runOp_mem_calls h
    subst hc
    simp [bodyKeys, keysOf]
  case _ =>
    intro tr wid params c h
    obtain ⟨v, _, hc⟩ := runOp_mem_calls h
    subst hc
    simp [bodyKeys, keysOf]
  case _ =>
    intro tr wid params c h
    obtain ⟨v, _, hc⟩ := runOp_mem_calls h
    subst hc
    simp [bodyKeys, keysOf]
  case _ =>
    intro tr wid params c h
    obtain ⟨v, _, hc⟩ := runOp_mem_calls h
    subst hc
    simp [bodyKeys, keysOf]
  case _ =>
    intro tr bid params c h
    obtain ⟨v, _, hc⟩ := runOp_mem_calls h
    subst hc
    rfl
  case _ =>
    intro tr wid params c h
    obtain ⟨v, _, hc⟩ := runOp_mem_calls h
    subst hc
    rfl
  case _ =>
    intro tr bid params c h
    obtain ⟨v, _, hc⟩ := runOp_mem_calls h
    subst hc
    rfl
  case _ =>
    intro tr cid params c h
    obtain ⟨v, hv, hc⟩ := runOp_mem_calls h
    subst hc
    obtain ⟨l, out, _, hpf, hvout⟩ := pObject_shape hv
    subst hvout
    intro k hk
    obtain ⟨f, hf, hfk⟩ := parseFields_keys_sub hpf k (by simpa [bodyKeys] using hk)
    subst hfk
    simp [updateContractEventSchema] at hf
    rcases hf with hf | hf <;> rw [hf] <;> simp
  case _ =>
    intro tr cid params c h
    obtain ⟨v, hv, hc⟩ := runOp_mem_calls h
    subst hc
    obtain ⟨l, out, _, hpf, hvout⟩ := pObject_shape hv
    subst hvout
    intro k hk
    obtain ⟨f, hf, hfk⟩ := parseFields_keys_sub hpf k (by simpa [bodyKeys] using hk)
    subst hfk
    simp [searchContractEventLogsSchema] at hf
    rcases hf with hf | hf | hf <;> rw [hf] <;> simp
  case _ =>
    intro tr bid params c h
    obtain ⟨v, hv, hc⟩ := runOp_mem_calls h
    subst hc
    obtain ⟨l, out, _, hpf, hvout⟩ := pObject_shape hv
    subst hvout
    simpa [bodyKeys] using parseFields_uuid_head_mem hpf

/-- C3 counterexample: `ContractEvents.create` duplicates the path
identifier into the body — the POST body is the whole validated object,
`businessId` included. -/
theorem c3_create_event_body_has_businessId :
    (contractEventsCreate (constTr sampleContractEvent) uuidB
        [("chainId", .num 1), ("contractAddress", .str "0xc"), ("name", .str "n"),
         ("description", .str "d"), ("eventName", .str "E")]).1 =
      [⟨"POST", "/business/" ++ uuidB ++ "/events",
        some (.obj [("businessId", .str uuidB), ("chainId", .num 1),
          ("contractAddress", .str "0xc"), ("name", .str "n"),
          ("description", .str "d"), ("eventName", .str "E")])⟩] ∧
    "businessId" ∈ bodyKeys ⟨"POST", "/business/" ++ uuidB ++ "/events",
        some (.obj [("businessId", .str uuidB), ("chainId", .num 1),
          ("contractAddress", .str "0xc"), ("name", .str "n"),
          ("description", .str "d"), ("eventName", .str "E")])⟩ :=
  ⟨rfl, by simp [bodyKeys, keysOf]⟩

/-- Witness for C3: the amended theorem's hypotheses are satisfiable. -/
theorem c3_path_ids_not_in_body_witness :
    bodyKeys ⟨"POST", "/business/" ++ uuidA ++ "/wallets",
      some (.obj [("chainId", .num 1), ("name", .str "w"), ("description", .undefined)])⟩ =
      ["chainId", "name", "description"] :=
  c3_path_ids_not_in_body.1 (constTr sampleWallet) uuidA
    [("chainId", .num 1), ("name", .str "w")] _
    (by rw [show (walletsCreate (constTr sampleWallet) uuidA
        [("chainId", .num 1), ("name", .str "w")]).1 =
      [⟨"POST", "/business/" ++ uuidA ++ "/wallets",
        some (.obj [("chainId", .num 1), ("name", .str "w"),
          ("description", .undefined)])⟩] from rfl]
        exact List.mem_cons_self _ _)

/-- C4 (amended): an optional body field reaches the serialized JSON body
exactly when its validated value is not `undefined` — a field omitted by
the caller is dropped by JSON serialization, but a field explicitly
supplied as `null` passes the nullable schema and IS serialized as `null`
(third conjunct; the claim said null fields would be dropped too, which the
counterexample refutes). Shown for `Wallets.update` (empty, string and
null cases) and `Wallets.createDelegation` (only the required
`delegationData` supplied). -/
theorem c4_optional_body_serialization :
    (∀ tr wid, isUUID wid = true →
      (walletsUpdate tr wid []).1 =
        [⟨"PUT", "/wallets/" ++ wid,
          some (.obj [("name", .undefined), ("description", .undefined)])⟩] ∧
      serializedBody ⟨"PUT", "/wallets/" ++ wid,
          some (.obj [("name", .undefined), ("description", .undefined)])⟩ =
        some (.obj [])) ∧
    (∀ tr wid s, isUUID wid = true →
      (walletsUpdate tr wid [("name", .str s)]).1 =
        [⟨"PUT", "/wallets/" ++ wid,
          some (.obj [("name", .str s), ("description", .undefined)])⟩] ∧
      serializedBody ⟨"PUT", "/wallets/" ++ wid,
          some (.obj [("name", .str s), ("description", .undefined)])⟩ =
        some (.obj [("name", .str s)])) ∧
    (∀ tr wid, isUUID wid = true →
      (walletsUpdate tr wid [("name", .null)]).1 =
        [⟨"PUT", "/wallets/" ++ wid,
          some (.obj [("name", .null), ("description", .undefined)])⟩] ∧
      serializedBody ⟨"PUT", "/wallets/" ++ wid,
          some (.obj [("name", .null), ("description", .undefined)])⟩ =
        some (.obj [("name", .null)])) ∧
    (∀ tr wid d, isUUID wid = true →
      (walletsCreateDelegation tr wid [("delegationData", .str d)]).1 =
        [⟨"POST", "/wallets/" ++ wid ++ "/delegations",
          some (.obj [("startTime", .undefined), ("endTime", .undefined),
            ("contractAddresses", .undefined), ("methods", .undefined),
            ("delegationData", .str d)])⟩] ∧
      serializedBody ⟨"POST", "/wallets/" ++ wid ++ "/delegations",
          some (.obj [("startTime", .undefined), ("endTime", .undefined),
            ("contractAddresses", .undefined), ("methods", .undefined),
            ("delegationData", .str d)])⟩ =
        some (.obj [("delegationData", .str d)])) := by
  refine ⟨?_, ?_, ?_, ?_⟩
  case _ =>
    intro tr wid h
    have hv : pObject updateWalletSchema
        (.obj (spreadObj [("walletId", .str wid)] [])) =
        some (.obj [("walletId", .str wid)]) := by
      simp [pObject, parseFields, parseFieldVal, updateWalletSchema, jsGet, hasKeyB,
        spreadObj, setKey, pUuid, pString, h, JsonValue.isUndefined, List.any_cons]
    refine ⟨?_, rfl⟩
    unfold walletsUpdate
    rw [runOp_input_valid hv]
    simp [vGet, jsGet, jsToString]
  case _ =>
    intro tr wid s h
    have hv : pObject updateWalletSchema
        (.obj (spreadObj [("walletId", .str wid)] [("name", .str s)])) =
        some (.obj [("walletId", .str wid), ("name", .str s)]) := by
      simp [pObject, parseFields, parseFieldVal, updateWalletSchema, jsGet, hasKeyB,
        spreadObj, setKey, pUuid, pString, h, JsonValue.isUndefined, List.any_cons]
    refine ⟨?_, rfl⟩
    unfold walletsUpdate
    rw [runOp_input_valid hv]
    simp [vGet, jsGet, jsToString]
  case _ =>
    intro tr wid h
    have hv : pObject updateWalletSchema
        (.obj (spreadObj [("walletId", .str wid)] [("name", .null)])) =
        some (.obj [("walletId", .str wid), ("name", .null)]) := by
      simp [pObject, parseFields, parseFieldVal, updateWalletSchema, jsGet, hasKeyB,
        spreadObj, setKey, pUuid, pString, h, JsonValue.isUndefined, List.any_cons]
    refine ⟨?_, rfl⟩
    unfold walletsUpdate
    rw [runOp_input_valid hv]
    simp [vGet, jsGet, jsToString]
  case _ =>
    intro tr wid d h
    have hv : pObject createDelegationSchema
        (.obj (spreadObj [("walletId", .str wid)] [("delegationData", .str d)])) =
        some (.obj [("walletId", .str wid), ("delegationData", .str d)]) := by
      simp [pObject, parseFields, parseFieldVal, createDelegationSchema, jsGet,
        hasKeyB, spreadObj, setKey, pUuid, pString, pNumber, pArray, h,
        JsonValue.isUndefined, List.any_cons]
    refine ⟨?_, rfl⟩
    unfold walletsCreateDelegation
    rw [runOp_input_valid hv]
    simp [vGet, jsGet, jsToString]

/-- C4 counterexample: `Wallets.update` called with `name` explicitly
`null` produces a serialized JSON body that DOES contain a null `name`
field — explicit `null` is not dropped, only `undefined` is. -/
theorem c4_null_name_reaches_wire :
    (walletsUpdate (constTr sampleWallet) uuidA [("name", .null)]).1 =
      [⟨"PUT", "/wallets/" ++ uuidA,
        some (.obj [("name", .null), ("description", .undefined)])⟩] ∧
    serializedBody ⟨"PUT", "/wallets/" ++ uuidA,
        some (.obj [("name", .null), ("description", .undefined)])⟩ =
      some (.obj [("name", .null)]) :=
  ⟨rfl, rfl⟩

/-- Witness for C4: the amended theorem's hypotheses are satisfiable. -/
theorem c4_optional_body_serialization_witness :
    (walletsUpdate (constTr sampleWallet) uuidA []).1 =
      [⟨"PUT", "/wallets/" ++ uuidA,
        some (.obj [("name", .undefined), ("description", .undefined)])⟩] ∧
    serializedBody ⟨"PUT", "/wallets/" ++ uuidA,
        some (.obj [("name", .undefined), ("description", .undefined)])⟩ =
      some (.obj []) :=
  c4_optional_body_serialization.1 (constTr sampleWallet) uuidA rfl

theorem mem_map_fst_ite_single {b : Bool} {key x k : String}
    (h : k ∈ ((if b = true then [(key, x)] else []) : List (String × String)).map
      Prod.fst) : k = key ∧ b = true := by
  cases b <;> simp at h
  exact ⟨h, rfl⟩

/-- C5: `getSignature` always places `contractAddress` and
`destinationAddress` in the query, appends each of `amount`, `validUntil`,
`validAfter`, `fromAddress` exactly when present with a non-null,
non-undefined value (first conjunct, over every validated params object),
and a call supplying only the two required fields issues a GET whose query
string carries exactly those two parameters (second conjunct). -/
theorem c5_signature_query_params :
    (∀ v, "contractAddress" ∈ (getSignatureQuery v).map Prod.fst ∧
      "destinationAddress" ∈ (getSignatureQuery v).map Prod.fst ∧
      ("amount" ∈ (getSignatureQuery v).map Prod.fst ↔
        isLooselyDefined (vGet v "amount") = true) ∧
      ("validUntil" ∈ (getSignatureQuery v).map Prod.fst ↔
        isLooselyDefined (vGet v "validUntil") = true) ∧
      ("validAfter" ∈ (getSignatureQuery v).map Prod.fst ↔
        isLooselyDefined (vGet v "validAfter") = true) ∧
      ("fromAddress" ∈ (getSignatureQuery v).map Prod.fst ↔
        isLooselyDefined (vGet v "fromAddress") = true)) ∧
    (∀ tr wid ca da, isUUID wid = true →
      ∃ c, (walletsGetSignature tr wid "erc3009"
          [("contractAddress", .str ca), ("destinationAddress", .str da)]).1 = [c] ∧
        c.path = "/wallets/" ++ wid ++ "/signature/" ++ "erc3009" ++ "?" ++
          renderQuery [("contractAddress", ca), ("destinationAddress", da)]) := by
  constructor
  · intro v
    rcases ha : isLooselyDefined (vGet v "amount") <;>
      rcases hu : isLooselyDefined (vGet v "validUntil") <;>
        rcases hf : isLooselyDefined (vGet v "validAfter") <;>
          rcases hr : isLooselyDefined (vGet v "fromAddress") <;>
            simp [getSignatureQuery, ha, hu, hf, hr]
  · intro tr wid ca da h
    have hv : pObject getSignatureSchema
        (.obj (spreadObj [("walletId", .str wid), ("type", .str "erc3009")]
          [("contractAddress", .str ca), ("destinationAddress", .str da)])) =
        some (.obj [("walletId", .str wid), ("type", .str "erc3009"),
          ("contractAddress", .str ca), ("destinationAddress", .str da)]) := by
      simp [pObject, parseFields, parseFieldVal, getSignatureSchema, jsGet, hasKeyB,
        spreadObj, setKey, pUuid, pString, pEnum, h, JsonValue.isUndefined, List.any_cons]
    unfold walletsGetSignature
    rw [runOp_input_valid hv]
    refine ⟨_, rfl, ?_⟩
    simp [vGet, jsGet, jsToString, getSignatureQuery, isLooselyDefined]

/-- Witness for C5: the theorem's hypotheses are satisfiable. -/
theorem c5_signature_query_params_witness :
    ∃ c, (walletsGetSignature (constTr sampleSignatureResponse) uuidA "erc3009"
        [("contractAddress", .str "0xtok"), ("destinationAddress", .str "0xdst")]).1 =
      [c] ∧
      c.path = "/wallets/" ++ uuidA ++ "/signature/" ++ "erc3009" ++ "?" ++
        renderQuery [("contractAddress", "0xtok"), ("destinationAddress", "0xdst")] :=
  c5_signature_query_params.2 (constTr sampleSignatureResponse) uuidA "0xtok" "0xdst" rfl


theorem entriesQuery_keys_sub {params : List (String × JsonValue)} {k : String}
    (h : k ∈ (entriesQuery params).map Prod.fst) :
    ∃ p ∈ params, p.1 = k ∧ isLooselyDefined p.2 = true := by
  induction params with
  | nil => simp [entriesQuery] at h
  | cons q rest ih =>
    by_cases hq : isLooselyDefined q.2 = true
    · rw [show entriesQuery (q :: rest) = (q.1, jsToString q.2) :: entriesQuery rest by
        simp [entriesQuery, List.filter_cons, hq]] at h
      simp only [List.map_cons, List.mem_cons] at h
      rcases h with h | h
      · exact ⟨q, by simp, h.symm, hq⟩
      · obtain ⟨p, hp, h1, h2⟩ := ih h
        exact ⟨p, by simp [hp], h1, h2⟩
    · rw [show entriesQuery (q :: rest) = entriesQuery rest by
        simp [entriesQuery, List.filter_cons, hq]] at h
      obtain ⟨p, hp, h1, h2⟩ := ih h
      exact ⟨p, by simp [hp], h1, h2⟩

theorem jsGet_of_mem_nodup {l : List (String × JsonValue)} {p : String × JsonValue}
    {k : String} (hn : nodupKeysB l = true) (hp : p ∈ l) (hk : p.1 = k) :
    jsGet l k = p.2 := by
  induction l with
  | nil => simp at hp
  | cons q rest ih =>
    obtain ⟨hnq, hnr⟩ := nodupKeysB_cons hn
    rcases List.mem_cons.mp hp with rfl | hp2
    · simp [jsGet, hk]
    · have hqk : ¬ q.1 = k := fun hc => hnq p hp2 (by rw [hk, hc])
      rw [show jsGet (q :: rest) k = jsGet rest k by simp [jsGet, hqk]]
      exact ih hnr hp2

theorem renderQuery_nil : renderQuery [] = "" := rfl

/-- C6: null/undefined filter values are omitted from the query string.
First conjunct: for the operations that iterate the raw params object
(`Wallets.list`, `Wallets.listDelegations`), any key whose value is
`undefined` or `null` never appears among the query parameters. Second
conjunct: for `ContractEvents.list`, every key appearing in the query has a
non-null, non-undefined validated value. Third and fourth conjuncts: a
filterless `Wallets.list` / `ContractEvents.list` issues a GET whose path
is the bare collection path — empty query string, no trailing
question mark. -/
theorem c6_null_filters_omitted :
    (∀ params k, nodupKeysB params = true →
      isLooselyDefined (jsGet params k) = false →
      k ∉ (entriesQuery params).map Prod.fst) ∧
    (∀ v k, k ∈ (contractEventsListQuery v).map Prod.fst →
      isLooselyDefined (vGet v k) = true) ∧
    (∀ tr bid, isUUID bid = true →
      (walletsList tr bid []).1 =
        [⟨"GET", "/business/" ++ bid ++ "/wallets", none⟩]) ∧
    (∀ tr bid, isUUID bid = true →
      (contractEventsList tr bid []).1 =
        [⟨"GET", "/business/" ++ bid ++ "/events", none⟩]) := by
  refine ⟨?_, ?_, ?_, ?_⟩
  case _ =>
    intro params k hn h hmem
    obtain ⟨p, hp, hpk, hpdef⟩ := entriesQuery_keys_sub hmem
    rw [jsGet_of_mem_nodup hn hp hpk, hpdef] at h
    exact Bool.true_eq_false.mp h
  case _ =>
    intro v k hk
    simp only [contractEventsListQuery, List.map_append, List.mem_append] at hk
    rcases hk with ((((((hk | hk) | hk) | hk) | hk) | hk) | hk) <;>
      (obtain ⟨hke, hc⟩ := mem_map_fst_ite_single hk; rw [hke]; exact hc)
  case _ =>
    intro tr bid h
    have hv : pObject listWalletsSchema
        (.obj (spreadObj [("businessId", .str bid)] [])) =
        some (.obj [("businessId", .str bid)]) := by
      simp [pObject, parseFields, parseFieldVal, listWalletsSchema, jsGet, hasKeyB,
        spreadObj, setKey, pUuid, pString, pNumber, h, JsonValue.isUndefined]
    unfold walletsList
    rw [runOp_input_valid hv]
    simp [vGet, jsGet, jsToString, entriesQuery, mkPath, renderQuery_nil]
  case _ =>
    intro tr bid h
    have hv : pObject listContractEventsSchema
        (.obj (spreadObj [("businessId", .str bid)] [])) =
        some (.obj [("businessId", .str bid)]) := by
      simp [pObject, parseFields, parseFieldVal, listContractEventsSchema, jsGet,
        hasKeyB, spreadObj, setKey, pUuid, pString, pNumber, pEnum,
        JsonValue.isUndefined, h]
    unfold contractEventsList
    rw [runOp_input_valid hv]
    simp [vGet, jsGet, jsToString, contractEventsListQuery, mkPath, renderQuery_nil,
      isLooselyDefined]

/-- Witness for C6: the theorem's hypotheses are satisfiable. -/
theorem c6_null_filters_omitted_witness :
    ("chainId" ∉ (entriesQuery [("chainId", JsonValue.null)]).map Prod.fst) ∧
    (walletsList (constTr sampleWallet) uuidA []).1 =
      [⟨"GET", "/business/" ++ uuidA ++ "/wallets", none⟩] :=
  ⟨c6_null_filters_omitted.1 [("chainId", .null)] "chainId" rfl rfl,
    c6_null_filters_omitted.2.2.1 (constTr sampleWallet) uuidA rfl⟩

/-- C7: `ContractEvents.searchLogs` with the params argument absent
(`undefined`) substitutes the empty object before validation: for every
transport and every `contractEventId`, it issues exactly one POST to
`/events/.../search` whose body is the empty JSON object with all of
`startBlock`, `endBlock`, `topics` absent (first conjunct), and such a call
raises no validation error — whenever the server response conforms to the
search-result schema, the call returns it (second conjunct). -/
theorem c7_searchlogs_absent_params :
    (∀ tr cid, (contractEventsSearchLogs tr cid .undefined).1 =
      [⟨"POST", "/events/" ++ cid ++ "/search", some (.obj [])⟩]) ∧
    (∀ tr cid r, pObject contractEventSearchResultSchema
        (tr ⟨"POST", "/events/" ++ cid ++ "/search", some (.obj [])⟩) = some r →
      (contractEventsSearchLogs tr cid .undefined).2 = some r) := by
  have hv : pObject searchContractEventLogsSchema (.obj []) = some (.obj []) := rfl
  constructor
  · intro tr cid
    show (runOp searchContractEventLogsSchema (.obj [])
      (fun v => ⟨"POST", "/events/" ++ cid ++ "/search", some v⟩) tr
      (pObject contractEventSearchResultSchema)).1 = _
    rw [runOp_input_valid hv]
  · intro tr cid r h
    show (runOp searchContractEventLogsSchema (.obj [])
      (fun v => ⟨"POST", "/events/" ++ cid ++ "/search", some v⟩) tr
      (pObject contractEventSearchResultSchema)).2 = some r
    rw [runOp_input_valid hv]
    exact h

/-- Witness for C7: the hypotheses are satisfiable. -/
theorem c7_searchlogs_absent_params_witness :
    (contractEventsSearchLogs (constTr sampleSearchResult) "evt" .undefined).2 =
      some sampleSearchResult :=
  c7_searchlogs_absent_params.2 (constTr sampleSearchResult) "evt"
    sampleSearchResult rfl

/-- C8: for every delegation ID that passes UUID validation,
`Wallets.deleteDelegation` issues exactly one DELETE whose path is the
literal singular segment `/delegation/` followed by the ID (and returns the
transport value as-is). -/
theorem c8_delete_delegation_singular_path :
    ∀ tr did, isUUID did = true →
      walletsDeleteDelegation tr did =
        ([⟨"DELETE", "/delegation/" ++ did, none⟩],
          some (tr ⟨"DELETE", "/delegation/" ++ did, none⟩)) := by
  intro tr did h
  have hv : pObject deleteDelegationSchema (.obj [("delegationId", .str did)]) =
      some (.obj [("delegationId", .str did)]) := by
    simp [pObject, parseFields, parseFieldVal, deleteDelegationSchema, jsGet,
      hasKeyB, pUuid, h]
  unfold walletsDeleteDelegation
  rw [runOp_input_valid hv]
  simp [vGet, jsGet, jsToString]

/-- Witness for C8: the hypothesis is satisfiable. -/
theorem c8_delete_delegation_singular_path_witness :
    walletsDeleteDelegation (constTr (.obj [("success", .bool true)])) uuidA =
      ([⟨"DELETE", "/delegation/" ++ uuidA, none⟩],
        some (constTr (.obj [("success", .bool true)])
          ⟨"DELETE", "/delegation/" ++ uuidA, none⟩)) :=
  c8_delete_delegation_singular_path (constTr (.obj [("success", .bool true)]))
    uuidA rfl

/-- C10: `Wallets.list` and `Wallets.listDelegations` build the query
string from the RAW caller-supplied params object, not the validated
result. First two conjuncts: whenever input validation succeeds, the
issued call's query parameters are exactly `entriesQuery params` — every
enumerable key with a non-null, non-undefined value, in enumeration order.
Third conjunct: validation strips every key not declared in
`listWalletsSchema` from the validated value. Fourth conjunct: an
undeclared key with a defined value nevertheless reaches the wire — the
validated params reduce to the businessId alone while the query string
carries the undeclared key. -/
theorem c10_query_from_raw_params :
    (∀ tr bid params v,
      pObject listWalletsSchema
        (.obj (spreadObj [("businessId", .str bid)] params)) = some v →
      ∃ c, (walletsList tr bid params).1 = [c] ∧
        c.path = mkPath ("/business/" ++ jsToString (vGet v "businessId") ++
          "/wallets") (entriesQuery params)) ∧
    (∀ tr wid params v,
      pObject listDelegationsSchema
        (.obj (spreadObj [("walletId", .str wid)] params)) = some v →
      ∃ c, (walletsListDelegations tr wid params).1 = [c] ∧
        c.path = mkPath ("/wallets/" ++ jsToString (vGet v "walletId") ++
          "/delegations") (entriesQuery params)) ∧
    (∀ l out, parseFields listWalletsSchema l = some out →
      ∀ k ∈ keysOf out,
        k ∈ ["businessId", "chainId", "pageSize", "page", "name"]) ∧
    (∀ tr bid s val, isUUID bid = true → isLooselyDefined val = true →
      s ≠ "businessId" → s ≠ "chainId" → s ≠ "pageSize" → s ≠ "page" →
      s ≠ "name" →
      pObject listWalletsSchema
        (.obj (spreadObj [("businessId", .str bid)] [(s, val)])) =
        some (.obj [("businessId", .str bid)]) ∧
      (walletsList tr bid [(s, val)]).1 =
        [⟨"GET", mkPath ("/business/" ++ bid ++ "/wallets")
          [(s, jsToString val)], none⟩]) := by
  refine ⟨?_, ?_, ?_, ?_⟩
  case _ =>
    intro tr bid params v h
    unfold walletsList
    rw [runOp_input_valid h]
    exact ⟨_, rfl, rfl⟩
  case _ =>
    intro tr wid params v h
    unfold walletsListDelegations
    rw [runOp_input_valid h]
    exact ⟨_, rfl, rfl⟩
  case _ =>
    intro l out h k hk
    obtain ⟨f, hf, hfk⟩ := parseFields_keys_sub h k hk
    subst hfk
    simp [listWalletsSchema] at hf
    rcases hf with hf | hf | hf | hf | hf <;> rw [hf] <;> simp
  case _ =>
    intro tr bid s val hb hdef h1 h2 h3 h4 h5
    have hsp : spreadObj [("businessId", .str bid)] [(s, val)] =
        [("businessId", .str bid), (s, val)] := by
      have hd : ∀ p ∈ [(s, val)],
          hasKeyB [("businessId", JsonValue.str bid)] p.1 = false := by
        intro p hp
        simp only [List.mem_singleton] at hp
        subst hp
        simp [hasKeyB, Ne.symm h1]
      rw [spreadObj_disjoint _ hd (by simp [nodupKeysB])]
      rfl
    have hv : pObject listWalletsSchema
        (.obj (spreadObj [("businessId", .str bid)] [(s, val)])) =
        some (.obj [("businessId", .str bid)]) := by
      rw [hsp]
      simp [pObject, parseFields, parseFieldVal, listWalletsSchema, jsGet, hasKeyB,
        pUuid, pString, pNumber, hb, JsonValue.isUndefined, List.any_cons,
        h1, h2, h3, h4, h5, Ne.symm h1, Ne.symm h2, Ne.symm h3, Ne.symm h4,
        Ne.symm h5]
    refine ⟨hv, ?_⟩
    unfold walletsList
    rw [runOp_input_valid hv]
    simp [vGet, jsGet, jsToString, entriesQuery, hdef]

/-- Witness for C10: the theorem's hypotheses are satisfiable. -/
theorem c10_query_from_raw_params_witness :
    pObject listWalletsSchema
      (.obj (spreadObj [("businessId", .str uuidA)] [("evil", .str "1")])) =
      some (.obj [("businessId", .str uuidA)]) ∧
    (walletsList (constTr sampleWallet) uuidA [("evil", .str "1")]).1 =
      [⟨"GET", mkPath ("/business/" ++ uuidA ++ "/wallets")
        [("evil", jsToString (.str "1"))], none⟩] :=
  c10_query_from_raw_params.2.2.2 (constTr sampleWallet) uuidA "evil" (.str "1")
    rfl rfl (by decide) (by decide) (by decide) (by decide) (by decide)

theorem hasKeyB_iff_mem_keys {l : List (String × JsonValue)} {k : String} :
    hasKeyB l k = true ↔ k ∈ keysOf l := by
  simp [hasKeyB, keysOf, List.any_eq_true, List.mem_map, beq_iff_eq]

theorem nodupKeysB_keys_nodup {l : List (String × JsonValue)}
    (h : nodupKeysB l = true) : (keysOf l).Nodup := by
  induction l with
  | nil => exact List.nodup_nil
  | cons p rest ih =>
    obtain ⟨hnp, hnr⟩ := nodupKeysB_cons h
    refine List.Nodup.cons ?_ (ih hnr)
    intro hmem
    simp only [keysOf, List.mem_map] at hmem
    obtain ⟨q, hq, hqk⟩ := hmem
    exact hnp q hq hqk

theorem sameKeySetB_iff {ks ns : List String} (h : sameKeySetB ks ns = true) :
    ∀ k, k ∈ ks ↔ k ∈ ns := by
  simp only [sameKeySetB, Bool.and_eq_true, List.all_eq_true, List.any_eq_true,
    beq_iff_eq] at h
  intro k
  constructor
  · intro hk
    obtain ⟨n, hn, hnk⟩ := h.2 k hk
    rwa [← hnk]
  · intro hk
    obtain ⟨k2, hk2, hkk⟩ := h.1 k hk
    rwa [← hkk]

theorem assoc_eta {l : List (String × JsonValue)} (h : nodupKeysB l = true) :
    (keysOf l).map (fun k => (k, jsGet l k)) = l := by
  induction l with
  | nil => rfl
  | cons p rest ih =>
    obtain ⟨hnp, hnr⟩ := nodupKeysB_cons h
    show (p.1, jsGet (p :: rest) p.1) ::
      (keysOf rest).map (fun k => (k, jsGet (p :: rest) k)) = p :: rest
    rw [show jsGet (p :: rest) p.1 = p.2 by simp [jsGet]]
    rw [show (keysOf rest).map (fun k => (k, jsGet (p :: rest) k)) =
        (keysOf rest).map (fun k => (k, jsGet rest k)) from
      List.map_congr_left ?_]
    · rw [ih hnr]
    · intro k hk
      simp only [keysOf, List.mem_map] at hk
      obtain ⟨q, hq, hqk⟩ := hk
      have hne : ¬ p.1 = k := by
        intro hc
        exact hnp q hq (by rw [hqk, hc])
      simp [jsGet, hne]

theorem parseFields_exact {fs : List ZField} {l : List (String × JsonValue)}
    (hf : ∀ f ∈ fs, hasKeyB l f.name = true ∧
      ∃ w, parseFieldVal f (jsGet l f.name) = some w ∧ DeepEquiv w (jsGet l f.name)) :
    ∃ out, parseFields fs l = some out ∧
      DeepEquivFields out (fs.map fun f => (f.name, jsGet l f.name)) := by
  induction fs with
  | nil => exact ⟨[], rfl, DeepEquivFields.nil⟩
  | cons f rest ih =>
    obtain ⟨hk, w, hw, he⟩ := hf f (by simp)
    obtain ⟨out, hout, heq⟩ := ih (fun g hg => hf g (by simp [hg]))
    refine ⟨(f.name, w) :: out, ?_, ?_⟩
    · simp [parseFields, hw, hout, hk]
    · exact DeepEquivFields.cons he heq

theorem perm_of_keys {l : List (String × JsonValue)} {ns : List String}
    (hn : nodupKeysB l = true) (hns : ns.Nodup)
    (hiff : ∀ k, k ∈ keysOf l ↔ k ∈ ns) :
    l.Perm (ns.map fun k => (k, jsGet l k)) := by
  have h1 : (keysOf l).Perm ns :=
    (List.perm_ext_iff_of_nodup (nodupKeysB_keys_nodup hn) hns).mpr hiff
  have h2 := h1.map (fun k => (k, jsGet l k))
  rwa [assoc_eta hn] at h2

theorem pObject_exact {fs : List ZField} {l : List (String × JsonValue)}
    (hn : nodupKeysB l = true) (hns : (fs.map ZField.name).Nodup)
    (hiff : ∀ k, k ∈ keysOf l ↔ k ∈ fs.map ZField.name)
    (hf : ∀ f ∈ fs, ∃ w, parseFieldVal f (jsGet l f.name) = some w ∧
      DeepEquiv w (jsGet l f.name)) :
    ∃ w, pObject fs (.obj l) = some w ∧ DeepEquiv w (.obj l) := by
  have hf2 : ∀ f ∈ fs, hasKeyB l f.name = true ∧
      ∃ w, parseFieldVal f (jsGet l f.name) = some w ∧
        DeepEquiv w (jsGet l f.name) := by
    intro f hfm
    refine ⟨?_, hf f hfm⟩
    rw [hasKeyB_iff_mem_keys]
    exact (hiff f.name).mpr (List.mem_map_of_mem ZField.name hfm)
  obtain ⟨out, hout, heq⟩ := parseFields_exact hf2
  refine ⟨.obj out, by simp [pObject, hout], ?_⟩
  refine DeepEquiv.obj (fs.map fun f => (f.name, jsGet l f.name)) ?_ heq
  have hp := perm_of_keys hn hns hiff
  rwa [List.map_map] at hp

theorem fieldRT_str {k : String} {nb : Bool} {v : JsonValue} (h : isStrB v = true) :
    ∃ w, parseFieldVal ⟨k, pString, false, nb⟩ v = some w ∧ DeepEquiv w v := by
  cases v <;> simp [isStrB] at h
  exact ⟨_, rfl, DeepEquiv.base _⟩

theorem fieldRT_uuid {k : String} {nb : Bool} {v : JsonValue}
    (h : isUuidB v = true) :
    ∃ w, parseFieldVal ⟨k, pUuid, false, nb⟩ v = some w ∧ DeepEquiv w v := by
  cases v <;> simp [isUuidB] at h
  exact ⟨_, by simp [parseFieldVal, pUuid, h], DeepEquiv.base _⟩

theorem fieldRT_bool {k : String} {nb : Bool} {v : JsonValue}
    (h : isBoolB v = true) :
    ∃ w, parseFieldVal ⟨k, pBoolean, false, nb⟩ v = some w ∧ DeepEquiv w v := by
  cases v <;> simp [isBoolB] at h
  exact ⟨_, rfl, DeepEquiv.base _⟩

theorem fieldRT_num {k : String} {int pos nonneg nb : Bool} {v : JsonValue}
    (h : numCheckB int pos nonneg v = true) :
    ∃ w, parseFieldVal ⟨k, pNumber int pos nonneg, false, nb⟩ v = some w ∧
      DeepEquiv w v := by
  cases v with
  | num q =>
    refine ⟨.num q, ?_, DeepEquiv.base _⟩
    have hg : ((!int || q.den == 1) && (!pos || decide (0 < q)) &&
        (!nonneg || decide (0 ≤ q))) = true := h
    simp only [parseFieldVal, pNumber, hg, if_true]
  | _ => simp [numCheckB] at h

theorem fieldRT_zero {k : String} {nb : Bool} {v : JsonValue}
    (h : isZeroNumB v = true) :
    ∃ w, parseFieldVal ⟨k, pLiteralZero, false, nb⟩ v = some w ∧ DeepEquiv w v := by
  cases v with
  | num q =>
    refine ⟨.num q, ?_, DeepEquiv.base _⟩
    have hg : (q.den == 1 && q == 0) = true := h
    simp only [parseFieldVal, pLiteralZero, hg, if_true]
  | _ => simp [isZeroNumB] at h

theorem fieldRT_orNull {k : String} {p : JsonValue → Option JsonValue}
    {chk : JsonValue → Bool} {v : JsonValue}
    (hinner : ∀ u, chk u = true →
      ∃ w, parseFieldVal ⟨k, p, false, true⟩ u = some w ∧ DeepEquiv w u)
    (h : orNullB chk v = true) :
    ∃ w, parseFieldVal ⟨k, p, false, true⟩ v = some w ∧ DeepEquiv w v := by
  cases v
  case null => exact ⟨.null, rfl, DeepEquiv.base _⟩
  all_goals exact hinner _ h

theorem fieldRT_balance {k : String} {v : JsonValue}
    (h : conformsExactBalance v = true) :
    ∃ w, parseFieldVal ⟨k, pObject accountBalanceDetailsSchema, false, true⟩ v =
      some w ∧ DeepEquiv w v := by
  cases v
  case obj l =>
    simp only [conformsExactBalance, Bool.and_eq_true] at h
    obtain ⟨⟨⟨⟨⟨⟨⟨⟨hn, hs⟩, h1⟩, h2⟩, h3⟩, h4⟩, h5⟩, h6⟩, h7⟩ := h
    have hfRT : ∀ f ∈ accountBalanceDetailsSchema,
        ∃ w, parseFieldVal f (jsGet l f.name) = some w ∧
          DeepEquiv w (jsGet l f.name) := by
      intro f hfm
      simp only [accountBalanceDetailsSchema, List.mem_cons,
        List.not_mem_nil, or_false] at hfm
      rcases hfm with rfl | rfl | rfl | rfl | rfl | rfl | rfl
      · exact fieldRT_zero h1
      · exact fieldRT_str h2
      · exact fieldRT_num h3
      · exact fieldRT_str h4
      · exact fieldRT_str h5
      · exact fieldRT_str h6
      · exact fieldRT_num h7
    obtain ⟨w, hw, he⟩ := pObject_exact hn (by decide) (sameKeySetB_iff hs) hfRT
    exact ⟨w, by simpa [parseFieldVal] using hw, he⟩
  all_goals simp [conformsExactBalance] at h

/-- C9: validating an object that conforms exactly to the Wallet schema
(all twelve declared fields present and valid, no extra fields, any
property order) succeeds and returns a deeply-equal object — equal as
JavaScript `deepEqual` reports it, i.e. up to property order, which is the
only thing zod's rebuild can change. -/
theorem c9_wallet_validation_roundtrip :
    ∀ v, conformsExactWallet v = true →
      ∃ w, pObject walletSchema v = some w ∧ DeepEquiv w v := by
  intro v h
  cases v
  case obj l =>
    simp only [conformsExactWallet, Bool.and_eq_true] at h
    obtain ⟨⟨⟨⟨⟨⟨⟨⟨⟨⟨⟨⟨⟨hn, hs⟩, h1⟩, h2⟩, h3⟩, h4⟩, h5⟩, h6⟩, h7⟩, h8⟩, h9⟩,
      h10⟩, h11⟩, h12⟩ := h
    have hfRT : ∀ f ∈ walletSchema,
        ∃ w, parseFieldVal f (jsGet l f.name) = some w ∧
          DeepEquiv w (jsGet l f.name) := by
      intro f hfm
      simp only [walletSchema, List.mem_cons, List.not_mem_nil, or_false] at hfm
      rcases hfm with rfl | rfl | rfl | rfl | rfl | rfl | rfl | rfl | rfl | rfl |
        rfl | rfl
      · exact fieldRT_uuid h1
      · exact fieldRT_str h2
      · exact fieldRT_orNull (fun u hu => fieldRT_uuid hu) h3
      · exact fieldRT_orNull (fun u hu => fieldRT_uuid hu) h4
      · exact fieldRT_num h5
      · exact fieldRT_str h6
      · exact fieldRT_str h7
      · exact fieldRT_bool h8
      · exact fieldRT_orNull (fun u hu => fieldRT_balance hu) h9
      · exact fieldRT_orNull (fun u hu => fieldRT_str hu) h10
      · exact fieldRT_num h11
      · exact fieldRT_num h12
    exact pObject_exact hn (by decide) (sameKeySetB_iff hs) hfRT
  all_goals simp [conformsExactWallet] at h

/-- Witness for C9: the hypothesis is satisfiable — `sampleWallet` lists
its properties out of schema order and still conforms exactly. -/
theorem c9_wallet_validation_roundtrip_witness :
    ∃ w, pObject walletSchema sampleWallet = some w ∧
      DeepEquiv w sampleWallet :=
  c9_wallet_validation_roundtrip sampleWallet (by decide)
